import Mathlib

/-!
# Verification of the fast_rag reasoning-engine control plane

Shallow embedding of the orchestration core of the `fast_rag` repository:
the token-budget circuit breaker (`app/core/rate_limiter.py`), the grounding
scorer and query expansion (`app/services/generator.py`), the tool executor
(`app/services/tool_executor.py`), the planner registry validation
(`app/services/planner.py`), the conditional router
(`app/services/conditional_router.py`) and the two execution modes of the
reasoning engine (`app/services/reasoning_engine.py`).

External collaborators (the LLM transport, vector index, relational store,
web search) are modelled as oracles: pure functions supplying, per call site,
the value the collaborator would have produced, or the exception it would
have raised (`Except`).  Python floats are modelled as exact rationals;
Python dicts that flow through loosely-typed code are modelled by the
`PyVal` datatype together with association lists.

All definitions are executable by kernel reduction: rational arithmetic is
expressed through `mkRat` (`qAdd`/`qSub` below agree with `+`/`-`), and the
Python string primitives are re-implemented structurally over `List Char`.
-/

set_option autoImplicit false

namespace FastRag

/-! ## Rational arithmetic helpers -/

/-- Addition on `ℚ` written so that it evaluates by kernel reduction. -/
def qAdd (a b : ℚ) : ℚ := mkRat (a.num * b.den + b.num * a.den) (a.den * b.den)

/-- Subtraction on `ℚ` written so that it evaluates by kernel reduction. -/
def qSub (a b : ℚ) : ℚ := mkRat (a.num * b.den - b.num * a.den) (a.den * b.den)

theorem qAdd_eq (a b : ℚ) : qAdd a b = a + b := (Rat.add_def' a b).symm

theorem qSub_eq (a b : ℚ) : qSub a b = a - b := (Rat.sub_def' a b).symm

/-! ## Python string and value primitives -/

/-- Python `s.lower()` (the strings that occur are ASCII). -/
def pyLower (s : String) : String := String.mk (s.toList.map Char.toLower)

/-- Helper for `pySplitWs`: accumulate the current token in reverse. -/
def wsTokensAux : List Char → List Char → List String
  | [], [] => []
  | [], acc => [String.mk acc.reverse]
  | c :: t, acc =>
      if c.isWhitespace then
        if acc.isEmpty then wsTokensAux t []
        else String.mk acc.reverse :: wsTokensAux t []
      else wsTokensAux t (c :: acc)

/-- Python `s.split()` without arguments: split on whitespace runs, dropping
empty pieces. -/
def pySplitWs (s : String) : List String := wsTokensAux s.toList []

/-- Helper for `pySplitLines`. -/
def lineSplitAux : List Char → List Char → List String
  | [], acc => [String.mk acc.reverse]
  | c :: t, acc =>
      if c = '\n' then String.mk acc.reverse :: lineSplitAux t []
      else lineSplitAux t (c :: acc)

/-- Python `s.split('\n')` (empties preserved). -/
def pySplitLines (s : String) : List String := lineSplitAux s.toList []

/-- Python `s.strip()`. -/
def pyStrip (s : String) : String :=
  String.mk (((s.toList.dropWhile Char.isWhitespace).reverse.dropWhile
    Char.isWhitespace).reverse)

/-- Python `s[:n]`. -/
def pyTake (s : String) (n : ℕ) : String := String.mk (s.toList.take n)

/-- Python `s.startswith(pre)`. -/
def pyStartsWith (s pre : String) : Bool := pre.toList.isPrefixOf s.toList

/-- Python `w.isalnum()`: nonempty and every character alphanumeric. -/
def pyIsAlnum (s : String) : Bool :=
  s ≠ "" && s.toList.all Char.isAlphanum

/-! ### Python value model

The executor and the grounding scorer manipulate loosely-typed values
(`step.input` may be a string, dict or list; step results carry opaque
outputs).  `PyVal` mirrors the JSON-ish values that occur, with Python
truthiness and `str()` rendering. -/

inductive PyVal where
  | none
  | str (s : String)
  | int (n : Int)
  | list (xs : List PyVal)
  | dict (kvs : List (String × PyVal))

/-- Python truthiness of a `PyVal` (`bool(v)`). -/
def pyTruthy : PyVal → Bool
  | .none => false
  | .str s => s != ""
  | .int n => n != 0
  | .list xs => !xs.isEmpty
  | .dict kvs => !kvs.isEmpty

mutual

/-- Structural equality of `PyVal` values (Python `==` on these values). -/
def pyValBEq : PyVal → PyVal → Bool
  | .none, .none => true
  | .str a, .str b => a == b
  | .int a, .int b => a == b
  | .list xs, .list ys => pyValListBEq xs ys
  | .dict a, .dict b => pyValKVBEq a b
  | _, _ => false

def pyValListBEq : List PyVal → List PyVal → Bool
  | [], [] => true
  | x :: xs, y :: ys => pyValBEq x y && pyValListBEq xs ys
  | _, _ => false

def pyValKVBEq : List (String × PyVal) → List (String × PyVal) → Bool
  | [], [] => true
  | (k, v) :: xs, (l, w) :: ys => k == l && pyValBEq v w && pyValKVBEq xs ys
  | _, _ => false

end

/-- Source `d.get(k)`: first binding of `k`, `None` when absent (dict keys are unique). -/
def pyGet (kvs : List (String × PyVal)) (k : String) : PyVal :=
  match kvs.find? (fun p => p.1 == k) with
  | some p => p.2
  | Option.none => .none

mutual

/-- Source `repr(v)` rendering used by `str()` on containers (string quoting is
modelled with `\x27`; the exact repr text is never load-bearing for a claim). -/
def pyRepr : PyVal → String
  | .none => "None"
  | .str s => "\x27" ++ s ++ "\x27"
  | .int n => toString n
  | .list xs => "[" ++ pyReprSeq xs ++ "]"
  | .dict kvs => "\x7b" ++ pyReprKVs kvs ++ "\x7d"

def pyReprSeq : List PyVal → String
  | [] => ""
  | [x] => pyRepr x
  | x :: y :: xs => pyRepr x ++ ", " ++ pyReprSeq (y :: xs)

def pyReprKVs : List (String × PyVal) → String
  | [] => ""
  | [(k, v)] => "\x27" ++ k ++ "\x27: " ++ pyRepr v
  | (k, v) :: kv :: kvs => "\x27" ++ k ++ "\x27: " ++ pyRepr v ++ ", " ++ pyReprKVs (kv :: kvs)

end

/-- Source `str(v)`: identity on strings, `repr` elsewhere. -/
def pyToString : PyVal → String
  | .str s => s
  | v => pyRepr v

/-! ## Grounding scorer — `GeneratorService.calculate_grounding_score`
(`app/services/generator.py`, lines 186-222). -/

/-- The stop-word set of `calculate_grounding_score`. -/
def stopWords : List String :=
  ["the", "a", "an", "and", "or", "but", "in", "on", "at", "to", "for",
   "of", "with", "is", "are", "was", "were"]

/-- Source `chunk.get('text') or chunk.get('output') or chunk.get('content') or str(chunk)`:
the first truthy value of the chain. -/
def chunkVal (chunk : List (String × PyVal)) : PyVal :=
  let t := pyGet chunk "text"
  if pyTruthy t then t else
  let o := pyGet chunk "output"
  if pyTruthy o then o else
  let c := pyGet chunk "content"
  if pyTruthy c then c else .str (pyToString (.dict chunk))

/-- One element of `context_parts`: list values are joined by spaces, then
`str()` is applied. -/
def contextPart (chunk : List (String × PyVal)) : String :=
  match chunkVal chunk with
  | .list xs => String.intercalate " " (xs.map pyToString)
  | v => pyToString v

/-- The set of lowercased whitespace tokens of the assembled context text
(list membership models Python set membership). -/
def contextWords (chunks : List (List (String × PyVal))) : List String :=
  pySplitWs (pyLower (String.intercalate " " (chunks.map contextPart)))

/-- Round-half-even of a rational to an integer, computed on numerator and
denominator (the model of Python float rounding on the exact value). -/
def intRoundHalfEven (q : ℚ) : ℤ :=
  let f := ⌊q⌋
  let twice : ℤ := 2 * (q.num - f * (q.den : ℤ))
  if twice < (q.den : ℤ) then f
  else if (q.den : ℤ) < twice then f + 1
  else if f % 2 = 0 then f else f + 1

/-- Source `round(score, 2)` on the exact rational score. -/
def pyRound2 (q : ℚ) : ℚ := mkRat (intRoundHalfEven (mkRat (100 * q.num) q.den)) 100

/-- Source `GeneratorService.calculate_grounding_score(response, context_chunks)`. -/
def calculate_grounding_score (response : String)
    (context_chunks : List (List (String × PyVal))) : ℚ :=
  if response = "" ∨ context_chunks.isEmpty = true then 0 else
  let ctx := contextWords context_chunks
  let response_words := ((pySplitWs response).filter pyIsAlnum).map pyLower
  let significant_words := response_words.filter (fun w => w ∉ stopWords)
  if significant_words = [] then 0 else
  let nMatches := significant_words.countP (fun w => w ∈ ctx)
  pyRound2 (mkRat nMatches significant_words.length)

/-- The fraction claimed by the specification, word for word: fraction of the
response's non-stopword tokens (lowercased, whitespace-tokenized) appearing
verbatim among the whitespace tokens of the concatenated tool outputs. -/
def claimGroundingFraction (response : String)
    (context_chunks : List (List (String × PyVal))) : ℚ :=
  let ctx := contextWords context_chunks
  let toks := (pySplitWs response).map pyLower
  let sig := toks.filter (fun w => w ∉ stopWords)
  if sig = [] then 0 else mkRat (sig.countP (fun w => w ∈ ctx)) sig.length

/-- The grounding fraction as amended: tokens are additionally filtered to the
purely alphanumeric ones (Python `w.isalnum()`), matching the source. -/
def amendedGroundingFraction (response : String)
    (context_chunks : List (List (String × PyVal))) : ℚ :=
  let ctx := contextWords context_chunks
  let toks := ((pySplitWs response).filter pyIsAlnum).map pyLower
  let sig := toks.filter (fun w => w ∉ stopWords)
  if sig = [] then 0 else mkRat (sig.countP (fun w => w ∈ ctx)) sig.length

/-! ## Token budget manager — `TokenBudgetManager`
(`app/core/rate_limiter.py`, lines 63-119).

The lock table `_locks : dict[str, float]` is an association list from model
name to unlock timestamp; wall-clock time is passed explicitly. -/

/-- The `_locks` table. -/
abbrev Budget := List (String × ℚ)

/-- Lookup of a lock entry. -/
def lookupLock (st : Budget) (m : String) : Option ℚ :=
  match st.find? (fun p => p.1 == m) with
  | some p => some p.2
  | Option.none => Option.none

/-- Source `del self._locks[model]`. -/
def eraseLock (st : Budget) (m : String) : Budget :=
  st.filter (fun p => p.1 != m)

/-- Source `self._locks[model] = t`. -/
def setLock (st : Budget) (m : String) (t : ℚ) : Budget :=
  (m, t) :: eraseLock st m

/-- Source `TokenBudgetManager.can_use(model)`: available unless a still-future lock
exists; expired entries are deleted on check (lazy expiry).  Returns the
answer together with the updated table. -/
def can_use (st : Budget) (now : ℚ) (m : String) : Bool × Budget :=
  match lookupLock st m with
  | Option.none => (true, st)
  | some reset_time =>
      if now > reset_time then (true, eraseLock st m) else (false, st)

/-- Digit run to a natural number. -/
def digitsToNat (ds : List Char) : ℕ :=
  ds.foldl (fun n c => 10 * n + (c.toNat - 48)) 0

/-- The groups `(\d+m)?(\d+(\.\d+)?s)?` of `report_429`'s regex, matched
greedily at the position right after the literal, as `re` does.  Returns the
total seconds contributed by the minutes and seconds groups, as the exact
rational `minutes*60 + whole_seconds + fractional_digits`. -/
def parseWaitGroups (rest : List Char) : ℚ :=
  let ds1 := rest.takeWhile Char.isDigit
  let (minutes, rest1) : ℕ × List Char :=
    if ds1 ≠ [] ∧ (rest.drop ds1.length).head? = some 'm' then
      (digitsToNat ds1, rest.drop (ds1.length + 1))
    else (0, rest)
  let ds2 := rest1.takeWhile Char.isDigit
  let (secWhole, fracDigits) : ℕ × List Char :=
    if ds2.isEmpty then (0, [])
    else
      match rest1.drop ds2.length with
      | '.' :: t =>
          let ds3 := t.takeWhile Char.isDigit
          if ds3 ≠ [] ∧ (t.drop ds3.length).head? = some 's' then (digitsToNat ds2, ds3)
          else (0, [])
      | 's' :: _ => (digitsToNat ds2, [])
      | _ => (0, [])
  mkRat ((minutes * 60 + secWhole) * 10 ^ fracDigits.length + digitsToNat fracDigits)
    (10 ^ fracDigits.length)

/-- Characters after the first occurrence of `"try again in "`, if any
(`re.search` scans left to right and stops at the first position where the
literal prefix of the pattern matches). -/
def findTryAgain : List Char → Option (List Char)
  | [] => Option.none
  | c :: t =>
      if ("try again in ".toList).isPrefixOf (c :: t) then
        some ((c :: t).drop ("try again in ".toList).length)
      else findTryAgain t

/-- The wait in seconds computed by `report_429`: 60 when the hint is absent
or contributes zero, otherwise the parsed total plus the 5-second buffer. -/
def waitSecondsOf (error_msg : String) : ℚ :=
  match findTryAgain error_msg.toList with
  | Option.none => 60
  | some rest =>
      let total := parseWaitGroups rest
      if 0 < total then qAdd total 5 else 60

/-- Source `TokenBudgetManager.report_429(model, error_msg)`. -/
def report_429 (st : Budget) (now : ℚ) (m : String) (error_msg : String) : Budget :=
  setLock st m (qAdd now (waitSecondsOf error_msg))

/-- Source `TokenBudgetManager.get_lock_duration(model)`: remaining seconds, clamped
to be nonnegative. -/
def get_lock_duration (st : Budget) (now : ℚ) (m : String) : ℚ :=
  match lookupLock st m with
  | Option.none => 0
  | some t => max 0 (qSub t now)

/-! ## Multi-query expansion — `GeneratorService.generate_queries`
(`app/services/generator.py`, lines 25-67), consumed by
`RetrieverService.retrieve` (`app/services/retriever.py`, line 24).

`svc` is the paraphrase text the generation service returns, or the exception
it raises (the rate-limited path reports and returns `[query]`, the same
observable result). -/

/-- The cleaned paraphrase lines: split on newlines, stripped, empties dropped. -/
def cleanedLines (content : String) : List String :=
  ((pySplitLines (pyStrip content)).map pyStrip).filter (· ≠ "")

/-- Source `GeneratorService.generate_queries(query)`.  `fastAvail` / `mainAvail` are
the circuit-breaker answers for the fast and main models. -/
def generate_queries (query : String) (fastAvail mainAvail : Bool)
    (svc : Except String String) : List String :=
  if !fastAvail && !mainAvail then [query]
  else
    match svc with
    | .error _ => [query]
    | .ok content =>
        let queries := cleanedLines content
        let queries := if query ∈ queries then queries else queries ++ [query]
        queries.take 4

/-! ## Claim C5 — grounding score -/

/-- Auxiliary: `pyRound2 0 = 0`. -/
theorem pyRound2_zero : pyRound2 0 = 0 := by decide

/-- C5, counterexample.  The claim says `calculate_grounding_score` returns
exactly the fraction of the response's non-stopword whitespace tokens found
in the tool outputs.  On response `"hello, world"` with single tool output
`"world"` that fraction is `1/2` (the token `"hello,"` is missing from the
context), but the code filters out `"hello,"` via `w.isalnum()` and returns
`1`. -/
theorem c5_counterexample :
    calculate_grounding_score "hello, world" [[("output", PyVal.str "world")]] = 1 ∧
    claimGroundingFraction "hello, world" [[("output", PyVal.str "world")]] = mkRat 1 2 ∧
    (mkRat 1 2 : ℚ) ≠ 1 :=
  ⟨by decide, by decide, by decide⟩

/-- C5 (amended): `calculate_grounding_score` returns the fraction of the
response's non-stopword, purely alphanumeric tokens (lowercased,
whitespace-tokenized) appearing verbatim among the whitespace tokens of the
concatenated tool outputs, rounded to two decimal places; it returns `0`
whenever the response is empty, the tool-output list is empty, or no
significant token remains — in particular
`calculate_grounding_score response [] = 0` for every response. -/
theorem c5_grounding_amended (response : String)
    (chunks : List (List (String × PyVal))) :
    calculate_grounding_score response chunks =
      (if response = "" ∨ chunks.isEmpty = true then 0
       else pyRound2 (amendedGroundingFraction response chunks)) ∧
    calculate_grounding_score response [] = 0 := by
  constructor
  · unfold calculate_grounding_score amendedGroundingFraction
    split
    · rfl
    · dsimp only
      split
      · exact pyRound2_zero.symm
      · rfl
  · unfold calculate_grounding_score
    simp

/-! ## Claim C4 — token budget circuit breaker -/

/-- Auxiliary: the wait computed by `report_429` is positive. -/
theorem waitSecondsOf_pos (e : String) : 0 < waitSecondsOf e := by
  unfold waitSecondsOf
  rcases h : findTryAgain e.toList with _ | rest
  · norm_num
  · dsimp only
    split
    · rw [qAdd_eq]
      next hpos => linarith
    · norm_num

/-- Auxiliary: the lock table after `report_429` on an empty table. -/
theorem report_429_nil (now : ℚ) (m e : String) :
    report_429 [] now m e = [(m, qAdd now (waitSecondsOf e))] := rfl

/-- C4, counterexample.  The claim says an unparsable wait hint defaults to
60s **plus the 5s buffer** (65s), and that any error text containing the
hint `"1m30s"` yields a lock of ≈95s.  The code adds the buffer only when
parsing succeeds, so `"unparsable"` locks for exactly 60s (not 65s), and the
bare text `"1m30s"` (without the `"try again in "` prefix required by the
regex) also locks for 60s, far outside 95±1. -/
theorem c4_counterexample :
    get_lock_duration (report_429 [] 0 "model-x" "unparsable") 0 "model-x" = 60 ∧
    (60 : ℚ) ≠ 65 ∧
    get_lock_duration (report_429 [] 0 "model-x" "1m30s") 0 "model-x" = 60 ∧
    ¬ (94 ≤ (60 : ℚ) ∧ (60 : ℚ) ≤ 96) :=
  ⟨by decide, by decide, by decide, by decide⟩

/-- C4 (amended): on a fresh `TokenBudgetManager`, `can_use` is `true` for
every model; after `report_429(m, e)` the model is locked for every error
text `e`; when `e` carries the hint `"try again in 1m30s"` the lock duration
is exactly 95 seconds (the parsed 90s plus the 5s buffer, within ±1s); when
the hint is absent (`"try again in "` does not occur in `e`) the wait
defaults to 60 seconds with no buffer; and once the current time strictly
passes the unlock timestamp, `can_use` answers `true` and removes the
entry. -/
theorem c4_budget_amended (m : String) (now : ℚ) :
    (can_use [] now m).1 = true ∧
    (∀ e : String, (can_use (report_429 [] now m e) now m).1 = false) ∧
    (get_lock_duration (report_429 [] now m "Please try again in 1m30s") now m = 95 ∧
      |get_lock_duration (report_429 [] now m "Please try again in 1m30s") now m - 95| ≤ 1) ∧
    (∀ e : String, findTryAgain e.toList = Option.none →
      get_lock_duration (report_429 [] now m e) now m = 60) ∧
    (∀ later : ℚ, now + 95 < later →
      can_use (report_429 [] now m "Please try again in 1m30s") later m = (true, [])) := by
  have hlook : ∀ e : String,
      lookupLock (report_429 [] now m e) m = some (qAdd now (waitSecondsOf e)) := by
    intro e
    rw [report_429_nil]
    unfold lookupLock
    simp [List.find?]
  have h95 : waitSecondsOf "Please try again in 1m30s" = 95 := by decide
  refine ⟨rfl, ?_, ?_, ?_, ?_⟩
  · intro e
    unfold can_use
    rw [hlook e]
    have hng : ¬ now > qAdd now (waitSecondsOf e) := by
      rw [qAdd_eq]
      have := waitSecondsOf_pos e
      push_neg
      linarith
    simp [hng]
  · have hd : get_lock_duration (report_429 [] now m "Please try again in 1m30s") now m
        = 95 := by
      unfold get_lock_duration
      rw [hlook, h95]
      dsimp only
      rw [qSub_eq, qAdd_eq]
      have h9 : now + 95 - now = (95 : ℚ) := by ring
      rw [h9]
      exact max_eq_right (by norm_num)
    exact ⟨hd, by rw [hd]; norm_num⟩
  · intro e he
    have hw : waitSecondsOf e = 60 := by
      unfold waitSecondsOf
      rw [he]
    unfold get_lock_duration
    rw [hlook e, hw]
    dsimp only
    rw [qSub_eq, qAdd_eq]
    have h6 : now + 60 - now = (60 : ℚ) := by ring
    rw [h6]
    exact max_eq_right (by norm_num)
  · intro later hlater
    unfold can_use
    rw [report_429_nil]
    unfold lookupLock
    simp only [List.find?, beq_self_eq_true]
    have : later > qAdd now (waitSecondsOf "Please try again in 1m30s") := by
      rw [h95, qAdd_eq]
      linarith
    simp only [this, if_pos]
    unfold eraseLock
    simp

/-- C4, witness: the amended theorem applied at `m := "m"`, `now := 0`,
with the unparsable text `"boom"` and the later time `100`. -/
theorem c4_witness :
    (can_use [] 0 "m").1 = true ∧
    (can_use (report_429 [] 0 "m" "x") 0 "m").1 = false ∧
    get_lock_duration (report_429 [] 0 "m" "Please try again in 1m30s") 0 "m" = 95 ∧
    get_lock_duration (report_429 [] 0 "m" "boom") 0 "m" = 60 ∧
    can_use (report_429 [] 0 "m" "Please try again in 1m30s") 100 "m" = (true, []) := by
  obtain ⟨h1, h2, h3, h4, h5⟩ := c4_budget_amended "m" 0
  exact ⟨h1, h2 "x", h3.1, h4 "boom" (by decide), h5 100 (by norm_num)⟩

/-! ## Claim C9 — multi-query expansion -/

/-- C9, counterexample.  When the generation service returns the four lines
`a, a, b, c`, the expansion is `["a", "a", "b", "c"]`: the original query
`"q"` is appended at the end and then truncated away by `[:4]`, and the
duplicate `"a"` survives — so neither "all distinct" nor "the original query
is always among them" holds. -/
theorem c9_counterexample :
    generate_queries "q" true true (.ok "a\na\nb\nc") = ["a", "a", "b", "c"] ∧
    "q" ∉ generate_queries "q" true true (.ok "a\na\nb\nc") ∧
    ¬ (generate_queries "q" true true (.ok "a\na\nb\nc")).Nodup :=
  ⟨by decide, by decide, by decide⟩

/-- C9 (amended): the expansion always produces at most 4 query strings; on
a service failure, or when every model is rate-locked, it is exactly
`[query]`; and the original query is among the results whenever the service
returns at most 3 cleaned paraphrase lines.  Duplicate paraphrase lines are
not removed. -/
theorem c9_generate_queries_amended (query : String) (fa ma : Bool)
    (svc : Except String String) :
    (generate_queries query fa ma svc).length ≤ 4 ∧
    (∀ msg, svc = .error msg → generate_queries query fa ma svc = [query]) ∧
    (fa = false → ma = false → generate_queries query fa ma svc = [query]) ∧
    (∀ content, svc = .ok content → (cleanedLines content).length ≤ 3 →
      query ∈ generate_queries query fa ma svc) := by
  refine ⟨?_, ?_, ?_, ?_⟩
  · unfold generate_queries
    rcases svc with msg | content
    · split <;> simp
    · split
      · simp
      · dsimp only
        exact List.length_take_le 4 _
  · intro msg hmsg
    subst hmsg
    unfold generate_queries
    split <;> rfl
  · intro hfa hma
    subst hfa; subst hma
    rfl
  · intro content hc hlen
    subst hc
    unfold generate_queries
    split
    · simp
    · dsimp only
      split
      · next hmem =>
          rw [List.take_of_length_le (le_trans hlen (by norm_num))]
          exact hmem
      · have hlen2 : (cleanedLines content ++ [query]).length ≤ 4 := by
          simp only [List.length_append, List.length_singleton]
          omega
        rw [List.take_of_length_le hlen2]
        simp

/-- C9, witness: the amended theorem applied at `query := "q"` with two
paraphrase lines, and at a failing service. -/
theorem c9_witness :
    (generate_queries "q" true true (.ok "p1\np2")).length ≤ 4 ∧
    "q" ∈ generate_queries "q" true true (.ok "p1\np2") ∧
    generate_queries "q" true true (.error "boom") = ["q"] := by
  obtain ⟨h1, _, _, h4⟩ := c9_generate_queries_amended "q" true true (.ok "p1\np2")
  obtain ⟨_, h2, _, _⟩ := c9_generate_queries_amended "q" true true (.error "boom")
  exact ⟨h1, h4 "p1\np2" rfl (by decide), h2 "boom" rfl⟩

/-! ## Tool executor — `ToolExecutor.execute_step`
(`app/services/tool_executor.py`, lines 10-62).

The two tool backends that can raise (`hybrid_retriever`, `web_search`) are
an oracle; `summarizer` and `code_interpreter` are pure in the source.  A
raised exception is an `Except.error` carrying `str(e)`. -/

structure ToolOracle where
  retrieve : String → Except String PyVal
  webSearch : String → Except String PyVal

/-- The `{"step_id": ..., "tool": ..., "output": ...}` result dict. -/
structure StepResult where
  step_id : PyVal
  tool : PyVal
  output : PyVal

/-- Python `str(type(v))`. -/
def pyTypeName : PyVal → String
  | .none => "<class \x27NoneType\x27>"
  | .str _ => "<class \x27str\x27>"
  | .int _ => "<class \x27int\x27>"
  | .list _ => "<class \x27list\x27>"
  | .dict _ => "<class \x27dict\x27>"

/-- Type sanitization of `step.input` (`tool_executor.py` lines 27-35):
a dict is reduced via the keys `query`/`input`/`code` or stringified, a list
is joined by spaces; anything else passes through. -/
def sanitizeInput : PyVal → PyVal
  | .dict kvs =>
      let q := pyGet kvs "query"
      if pyTruthy q then q else
      let i := pyGet kvs "input"
      if pyTruthy i then i else
      let c := pyGet kvs "code"
      if pyTruthy c then c else .str (pyToString (.dict kvs))
  | .list xs => .str (String.intercalate " " (xs.map pyToString))
  | v => v

/-- Source `ToolExecutor.execute_step(step)`.  Total by construction: the source's
`try`/`except` turns every backend exception into an error-tagged output. -/
def execute_step (o : ToolOracle) (step : List (String × PyVal)) : StepResult :=
  let tool_name := pyGet step "tool"
  let tool_input := pyGet step "input"
  let step_id := pyGet step "step_id"
  if !(pyTruthy tool_name) || pyValBEq tool_input PyVal.none then
    ⟨step_id, tool_name, .str "Error: Malformed step (missing name or input)"⟩
  else
    match sanitizeInput tool_input with
    | .str s =>
        if pyValBEq tool_name (.str "hybrid_retriever") then
          match o.retrieve s with
          | .ok v => ⟨step_id, tool_name, v⟩
          | .error e => ⟨step_id, tool_name, .str ("Error: " ++ e)⟩
        else if pyValBEq tool_name (.str "web_search") then
          match o.webSearch s with
          | .ok v => ⟨step_id, tool_name, v⟩
          | .error e => ⟨step_id, tool_name, .str ("Error: " ++ e)⟩
        else if pyValBEq tool_name (.str "summarizer") then
          ⟨step_id, tool_name, .str ("Summary of: " ++ pyTake s 100 ++ "...")⟩
        else if pyValBEq tool_name (.str "code_interpreter") then
          ⟨step_id, tool_name, .str "Code execution result placeholder"⟩
        else
          ⟨step_id, tool_name, .str "Error: Unknown tool"⟩
    | v => ⟨step_id, tool_name, .str ("Error: Input type mismatch (" ++ pyTypeName v ++ ")")⟩

/-- The engine's execution loop over a plan's steps
(`reasoning_engine.py` lines 133-137): `results = []` then append each
`execute_step` result in order. -/
def executeSteps (o : ToolOracle) (steps : List (List (String × PyVal))) :
    List StepResult :=
  steps.foldl (fun acc s => acc ++ [execute_step o s]) []

/-- Auxiliary: the append-fold is a map. -/
theorem foldl_append_eq_map {α β : Type} (f : α → β) (steps : List α) (acc : List β) :
    steps.foldl (fun a s => a ++ [f s]) acc = acc ++ steps.map f := by
  induction steps generalizing acc with
  | nil => simp
  | cons s t ih => simp [List.foldl_cons, ih]

theorem executeSteps_eq_map (o : ToolOracle) (steps : List (List (String × PyVal))) :
    executeSteps o steps = steps.map (execute_step o) := by
  unfold executeSteps
  rw [foldl_append_eq_map]
  simp

/-- Auxiliary: only `PyVal.none` is `==` to `PyVal.none`. -/
theorem pyValBEq_none_iff (v : PyVal) : pyValBEq v PyVal.none = true ↔ v = PyVal.none := by
  cases v <;> simp [pyValBEq]

/-- C6: `execute_step` is total (it always returns a `StepResult` echoing the
step's id and tool — the model being a total function is the counterpart of
"never raises"); a malformed step (falsy tool name, or missing input) gets
the explicit malformed-step error string; an unregistered tool name gets the
explicit `"Error: Unknown tool"` output; a backend exception is tagged as an
error string in the output; and the engine's batch execution is an
independent per-step map, so one step's failure cannot affect any other
step's result. -/
theorem c6_execute_step_total :
    (∀ (o : ToolOracle) (step : List (String × PyVal)),
      (execute_step o step).step_id = pyGet step "step_id" ∧
      (execute_step o step).tool = pyGet step "tool") ∧
    (∀ (o : ToolOracle) (step : List (String × PyVal)),
      pyTruthy (pyGet step "tool") = false ∨ pyGet step "input" = PyVal.none →
      (execute_step o step).output = .str "Error: Malformed step (missing name or input)") ∧
    (∀ (o : ToolOracle) (step : List (String × PyVal)) (t s : String),
      pyGet step "tool" = .str t → t ≠ "" →
      t ∉ ["hybrid_retriever", "web_search", "summarizer", "code_interpreter"] →
      sanitizeInput (pyGet step "input") = .str s →
      (execute_step o step).output = .str "Error: Unknown tool") ∧
    (∀ (o : ToolOracle) (step : List (String × PyVal)) (s e : String),
      pyGet step "tool" = .str "hybrid_retriever" →
      sanitizeInput (pyGet step "input") = .str s → o.retrieve s = .error e →
      (execute_step o step).output = .str ("Error: " ++ e)) ∧
    (∀ (o : ToolOracle) (step : List (String × PyVal)) (t : String) (n : Int),
      pyGet step "tool" = .str t → t ≠ "" → pyGet step "input" = .int n →
      (execute_step o step).output =
        .str ("Error: Input type mismatch (" ++ pyTypeName (.int n) ++ ")")) ∧
    (∀ (o : ToolOracle) (steps : List (List (String × PyVal))),
      executeSteps o steps = steps.map (execute_step o) ∧
      ∀ i : ℕ, (executeSteps o steps)[i]? = (steps[i]?).map (execute_step o)) := by
  have hnotnone : ∀ v s, sanitizeInput v = PyVal.str s → pyValBEq v PyVal.none = false := by
    intro v s hv
    cases hb : pyValBEq v PyVal.none
    · rfl
    · rw [pyValBEq_none_iff] at hb
      subst hb
      simp [sanitizeInput] at hv
  refine ⟨?_, ?_, ?_, ?_, ?_, ?_⟩
  · intro o step
    unfold execute_step
    constructor <;> (dsimp only; split)
    · rfl
    · split <;> (try split) <;> (try split) <;> (try split) <;> (try split) <;> rfl
    · rfl
    · split <;> (try split) <;> (try split) <;> (try split) <;> (try split) <;> rfl
  · intro o step h
    unfold execute_step
    have hcond : (!(pyTruthy (pyGet step "tool")) || pyValBEq (pyGet step "input") PyVal.none)
        = true := by
      rcases h with h | h
      · simp [h]
      · simp [h, pyValBEq]
    simp only [hcond, if_pos]
  · intro o step t s ht htne hmem hsan
    unfold execute_step
    have hcond : (!(pyTruthy (pyGet step "tool")) || pyValBEq (pyGet step "input") PyVal.none)
        = false := by
      rw [ht, hnotnone _ _ hsan]
      simp [pyTruthy, htne]
    dsimp only
    rw [hcond, hsan, ht]
    simp only [List.mem_cons, List.mem_singleton, List.not_mem_nil] at hmem
    push_neg at hmem
    obtain ⟨h1, h2, h3, h4⟩ := hmem
    simp [pyValBEq, h1, h2, h3, h4]
  · intro o step s e ht hsan hret
    unfold execute_step
    have hcond : (!(pyTruthy (pyGet step "tool")) || pyValBEq (pyGet step "input") PyVal.none)
        = false := by
      rw [ht, hnotnone _ _ hsan]
      simp [pyTruthy]
    dsimp only
    rw [hcond, hsan, ht]
    simp [pyValBEq, hret]
  · intro o step t n ht htne hin
    unfold execute_step
    have hcond : (!(pyTruthy (pyGet step "tool")) || pyValBEq (pyGet step "input") PyVal.none)
        = false := by
      rw [ht, hin]
      simp [pyTruthy, pyValBEq, htne]
    dsimp only
    rw [hcond, hin]
    rfl
  · intro o steps
    refine ⟨executeSteps_eq_map o steps, ?_⟩
    intro i
    rw [executeSteps_eq_map o steps, List.getElem?_map]

/-- C6, witness: a step with the unregistered tool `"alien_tool"` yields the
unknown-tool error; a `hybrid_retriever` step whose backend raises yields
the tagged error; a one-step batch is the map of `execute_step`. -/
theorem c6_witness :
    (execute_step ⟨fun _ => .error "db down", fun _ => .error "net down"⟩
       [("step_id", PyVal.int 1), ("tool", PyVal.str "alien_tool"),
        ("input", PyVal.str "x")]).output = PyVal.str "Error: Unknown tool" ∧
    (execute_step ⟨fun _ => .error "db down", fun _ => .error "net down"⟩
       [("step_id", PyVal.int 1), ("tool", PyVal.str "hybrid_retriever"),
        ("input", PyVal.str "x")]).output = PyVal.str ("Error: " ++ "db down") ∧
    executeSteps ⟨fun _ => .error "db down", fun _ => .error "net down"⟩
       [[("step_id", PyVal.int 1), ("tool", PyVal.str "alien_tool"),
         ("input", PyVal.str "x")]]
      = [execute_step ⟨fun _ => .error "db down", fun _ => .error "net down"⟩
          [("step_id", PyVal.int 1), ("tool", PyVal.str "alien_tool"),
           ("input", PyVal.str "x")]] := by
  obtain ⟨_, _, h3, h4, _, h5⟩ := c6_execute_step_total
  refine ⟨h3 _ _ "alien_tool" "x" rfl (by decide) (by decide) rfl,
          h4 _ _ "x" "db down" rfl rfl rfl, ?_⟩
  rw [(h5 _ _).1]
  rfl

/-! ## Planner — `Planner.create_plan`
(`app/services/planner.py`, lines 13-151).

The pydantic models `PlanStep`/`ExecutionPlan` are the typed plans the
planner can return (`plan_obj.dict()` after successful validation).  The
model tiers' behaviour is an oracle: per tier, the structured-output call
either yields a schema-valid plan, fails schema validation, raises a
rate-limit error, or raises some other error. -/

inductive PlannerAction where
  | execute
  | refuse
  | registry_violation
deriving DecidableEq

structure PlanStep where
  step_id : Int
  tool : String
  input : String
  reason : String
deriving DecidableEq

structure ExecutionPlan where
  query_analysis : String
  action : PlannerAction
  steps : List PlanStep
  final_instruction : String
deriving DecidableEq

structure ToolSpec where
  name : String
  description : String
deriving DecidableEq

/-- Source `re.search(r'"([^"]+)":\s*(.*)', line)`: first position where a nonempty
double-quoted name is followed by a colon; the description is the rest of
the line after optional whitespace. -/
def scanToolSpec : List Char → Option ToolSpec
  | [] => Option.none
  | '"' :: t =>
      let nm := t.takeWhile (· != '"')
      if nm.isEmpty then scanToolSpec t
      else
        match t.drop nm.length with
        | '"' :: ':' :: r =>
            some ⟨String.mk nm, String.mk (r.dropWhile Char.isWhitespace)⟩
        | _ => scanToolSpec t
  | _ :: t => scanToolSpec t

/-- The structured tool registry parsed from `available_tools_str`
(`planner.py` lines 44-51). -/
def parseTools (s : String) : List ToolSpec :=
  (pySplitLines s).filterMap (fun line => scanToolSpec line.toList)

/-- The final internal mismatch check of `create_plan` (`planner.py` lines
119-124): iterate over the returned steps; on any unregistered tool, force
`action = registry_violation` and clear the steps (a fold, because the
Python loop keeps iterating over the original list after mutating). -/
def planCheck (allowed : List String) (p : ExecutionPlan) : ExecutionPlan :=
  p.steps.foldl
    (fun acc s =>
      if s.tool ∈ allowed then acc
      else { acc with action := .registry_violation, steps := [] })
    p

/-- Possible behaviours of one model tier inside `create_plan`. -/
inductive TierOutcome where
  | valid (p : ExecutionPlan)
  | schemaInvalid
  | rateLimited (msg : String)
  | otherError

/-- The terminal fallback plan (`planner.py` lines 146-151). -/
def fallbackPlan : ExecutionPlan :=
  { query_analysis := "Critical system failure during planning.",
    action := .refuse,
    steps := [],
    final_instruction := "System unavailable. Suggesting retry later." }

/-- The tier loop of `create_plan` (`planner.py` lines 60-143): skip locked
tiers; a valid plan is returned after the mismatch check; schema and other
errors continue on the planning tier and break on the last tier; a
rate-limit error records a `ModelLock` and continues. -/
def createPlanGo (planningName : String) (allowed : List String) (now : ℚ) :
    List (String × TierOutcome) → Budget → Option ExecutionPlan × Budget
  | [], b => (Option.none, b)
  | (tier, outc) :: rest, b =>
      let r := can_use b now tier
      if r.1 = false then createPlanGo planningName allowed now rest r.2
      else
        match outc with
        | .valid p => (some (planCheck allowed p), r.2)
        | .schemaInvalid =>
            if tier = planningName then createPlanGo planningName allowed now rest r.2
            else (Option.none, r.2)
        | .rateLimited msg =>
            createPlanGo planningName allowed now rest (report_429 r.2 now tier msg)
        | .otherError =>
            if tier = planningName then createPlanGo planningName allowed now rest r.2
            else (Option.none, r.2)

/-- Source `Planner.create_plan(query, available_tools_str, critique)`.  The
critique only steers the model prompt, so it is reflected in the caller's
choice of tier outcomes; the tiers are `[GROQ_PLANNING_MODEL,
GROQ_FAST_MODEL]`. -/
def create_plan (availStr : String) (critique : Option String)
    (outcomes : TierOutcome × TierOutcome) (b : Budget) (now : ℚ)
    (planningName fastName : String) : ExecutionPlan × Budget :=
  let allowed := (parseTools availStr).map ToolSpec.name
  let r := createPlanGo planningName allowed now
    [(planningName, outcomes.1), (fastName, outcomes.2)] b
  (r.1.getD fallbackPlan, r.2)

/-- Auxiliary: the mismatch-check fold, started from `p` or from the
rewritten plan, yields the rewritten plan exactly when a bad step exists. -/
theorem planCheck_foldl (allowed : List String) (p : ExecutionPlan) :
    ∀ (l : List PlanStep) (acc : ExecutionPlan),
      (acc = p ∨ acc = { p with action := .registry_violation, steps := [] }) →
      l.foldl
        (fun acc s =>
          if s.tool ∈ allowed then acc
          else { acc with action := .registry_violation, steps := [] })
        acc =
      (if ∃ s ∈ l, s.tool ∉ allowed then { p with action := .registry_violation, steps := [] }
       else acc) := by
  intro l
  induction l with
  | nil => intro acc _; simp
  | cons s t ih =>
      intro acc hacc
      by_cases hs : s.tool ∈ allowed
      · rw [List.foldl_cons, if_pos hs, ih acc hacc]
        by_cases ht : ∃ x ∈ t, x.tool ∉ allowed
        · rw [if_pos ht, if_pos ⟨ht.choose, .tail _ ht.choose_spec.1, ht.choose_spec.2⟩]
        · rw [if_neg ht, if_neg]
          rintro ⟨x, hx, hxt⟩
          rcases List.mem_cons.mp hx with rfl | hx2
          · exact hxt hs
          · exact ht ⟨x, hx2, hxt⟩
      · rw [List.foldl_cons, if_neg hs]
        have hacc2 :
            ({ acc with action := PlannerAction.registry_violation, steps := [] } : ExecutionPlan)
            = { p with action := .registry_violation, steps := [] } := by
          rcases hacc with rfl | rfl <;> rfl
        rw [hacc2, ih _ (Or.inr rfl),
          if_pos (⟨s, List.mem_cons_self s t, hs⟩ : ∃ x ∈ s :: t, x.tool ∉ allowed)]
        split <;> rfl

/-- Auxiliary: `planCheck` on a plan whose steps all use registered tools is
the identity. -/
theorem planCheck_clean (allowed : List String) (p : ExecutionPlan)
    (h : ∀ s ∈ p.steps, s.tool ∈ allowed) : planCheck allowed p = p := by
  unfold planCheck
  rw [planCheck_foldl allowed p p.steps p (Or.inl rfl), if_neg]
  rintro ⟨s, hs, hst⟩
  exact hst (h s hs)

/-- Auxiliary: `planCheck` forcibly rewrites any plan with an unregistered
step tool. -/
theorem planCheck_dirty (allowed : List String) (p : ExecutionPlan)
    (h : ∃ s ∈ p.steps, s.tool ∉ allowed) :
    planCheck allowed p = { p with action := .registry_violation, steps := [] } := by
  unfold planCheck
  rw [planCheck_foldl allowed p p.steps p (Or.inl rfl), if_pos h]

/-- Auxiliary: every plan produced by the tier loop passed the mismatch
check. -/
theorem createPlanGo_planCheck (planningName : String) (allowed : List String)
    (now : ℚ) :
    ∀ (tiers : List (String × TierOutcome)) (b : Budget) (p : ExecutionPlan),
      (createPlanGo planningName allowed now tiers b).1 = some p →
      ∃ raw, p = planCheck allowed raw := by
  intro tiers
  induction tiers with
  | nil => intro b p h; simp [createPlanGo] at h
  | cons hd rest ih =>
      intro b p h
      rcases hd with ⟨tier, outc⟩
      unfold createPlanGo at h
      dsimp only at h
      by_cases hcu : (can_use b now tier).1 = false
      · rw [if_pos hcu] at h
        exact ih _ p h
      · rw [if_neg hcu] at h
        cases outc with
        | valid q =>
            refine ⟨q, ?_⟩
            simpa using h.symm
        | schemaInvalid =>
            dsimp only at h
            split at h
            · exact ih _ p h
            · simp at h
        | rateLimited msg =>
            dsimp only at h
            exact ih _ p h
        | otherError =>
            dsimp only at h
            split at h
            · exact ih _ p h
            · simp at h

/-- Auxiliary: every plan `create_plan` returns is the fallback refusal or
the mismatch-checked version of some schema-valid plan. -/
theorem create_plan_shape (availStr : String) (critique : Option String)
    (outcomes : TierOutcome × TierOutcome) (b : Budget) (now : ℚ)
    (planningName fastName : String) :
    (create_plan availStr critique outcomes b now planningName fastName).1 = fallbackPlan ∨
    ∃ raw, (create_plan availStr critique outcomes b now planningName fastName).1
      = planCheck ((parseTools availStr).map ToolSpec.name) raw := by
  unfold create_plan
  dsimp only
  cases hgo : (createPlanGo planningName ((parseTools availStr).map ToolSpec.name) now
      [(planningName, outcomes.1), (fastName, outcomes.2)] b).1 with
  | none => left; rfl
  | some p =>
      right
      obtain ⟨raw, hraw⟩ := createPlanGo_planCheck planningName
        ((parseTools availStr).map ToolSpec.name) now _ b p hgo
      exact ⟨raw, by rw [Option.getD_some]; exact hraw⟩

/-- C1: every plan returned by the Planner with `action = execute` only uses
tools of the registry snapshot parsed from `available_tools_str`; and any
plan with a step referencing a tool outside that registry is forcibly
rewritten by the mismatch check to `action = registry_violation` with empty
steps before being returned. -/
theorem c1_registry_invariant (availStr : String) (critique : Option String)
    (outcomes : TierOutcome × TierOutcome) (b : Budget) (now : ℚ)
    (planningName fastName : String) :
    ((create_plan availStr critique outcomes b now planningName fastName).1.action
        = PlannerAction.execute →
      ∀ s ∈ (create_plan availStr critique outcomes b now planningName fastName).1.steps,
        s.tool ∈ (parseTools availStr).map ToolSpec.name) ∧
    (∀ q : ExecutionPlan,
      (∃ s ∈ q.steps, s.tool ∉ (parseTools availStr).map ToolSpec.name) →
      planCheck ((parseTools availStr).map ToolSpec.name) q =
        { q with action := .registry_violation, steps := [] }) := by
  constructor
  · intro hact s hs
    rcases create_plan_shape availStr critique outcomes b now planningName fastName with
      hfb | ⟨raw, hraw⟩
    · rw [hfb] at hact
      simp [fallbackPlan] at hact
    · rw [hraw] at hact hs
      by_cases hbad : ∃ x ∈ raw.steps, x.tool ∉ (parseTools availStr).map ToolSpec.name
      · rw [planCheck_dirty _ raw hbad] at hact
        simp at hact
      · push_neg at hbad
        rw [planCheck_clean _ raw hbad] at hs
        exact hbad s hs
  · intro q hq
    exact planCheck_dirty _ q hq

/-- Sample registry string and plans for the C1 witness. -/
def c1AvailStr : String :=
  "1. \"hybrid_retriever\": Search across Vector DB and Relational DB.\n2. \"web_search\": Search the live internet."

def c1CleanPlan : ExecutionPlan :=
  { query_analysis := "lookup",
    action := .execute,
    steps := [⟨1, "hybrid_retriever", "kubernetes pods", "fetch docs"⟩],
    final_instruction := "answer from context" }

def c1BadPlan : ExecutionPlan :=
  { query_analysis := "lookup",
    action := .execute,
    steps := [⟨1, "document_retriever", "kubernetes pods", "fetch docs"⟩],
    final_instruction := "answer from context" }

/-- C1, witness: with the sample registry, a clean returned plan's steps all
use registered tools, and the mismatch check rewrites the plan using the
unregistered `document_retriever`. -/
theorem c1_witness :
    (∀ s ∈ (create_plan c1AvailStr Option.none (.valid c1CleanPlan, .schemaInvalid)
        [] 0 "planning-model" "fast-model").1.steps,
      s.tool ∈ (parseTools c1AvailStr).map ToolSpec.name) ∧
    planCheck ((parseTools c1AvailStr).map ToolSpec.name) c1BadPlan =
      { c1BadPlan with action := .registry_violation, steps := [] } := by
  obtain ⟨h1, h2⟩ := c1_registry_invariant c1AvailStr Option.none
    (.valid c1CleanPlan, .schemaInvalid) [] 0 "planning-model" "fast-model"
  exact ⟨h1 (by decide), h2 c1BadPlan ⟨⟨1, "document_retriever", "kubernetes pods", "fetch docs"⟩,
    by decide, by decide⟩⟩

/-! ## Reasoning engine — `ReasoningEngine`
(`app/services/reasoning_engine.py`).

Collaborators are an oracle indexed by the attempt number (each collaborator
is called at most once per attempt).  The buffered mode (`process_query`,
lines 21-192) and the streaming mode (`process_query_stream`, lines
194-389) are modelled by separate functions, each translated from its own
source lines.  The judge (`ResponseEvaluator.evaluate`) and the classifier
and screener catch all their own exceptions in the source, so their oracles
are total; the multi-agent system (`multi_agent_system.py`) has no handler,
so its oracle may raise. -/

/-- Source `self.MAX_RETRIES = 2` (`reasoning_engine.py` line 19). -/
def MAX_RETRIES : ℕ := 2

structure Assessment where
  is_safe : Bool
  threat_detected : String
  risk_score : ℚ
  reasoning : String

structure Intent where
  requires_computation : Bool
  requires_external_execution : Bool

/-- One passage returned by the `top_k=1` gate pre-check. -/
structure PreChunk where
  score : Option ℚ
  dense_score : Option ℚ

/-- Source `chunk.get('score', chunk.get('dense_score', 0))`. -/
def effScore (c : PreChunk) : ℚ := c.score.getD (c.dense_score.getD 0)

/-- The evaluation dict fields the engine reads and writes. -/
structure EngineEval where
  overall_grade : String
  reasoning : String
deriving DecidableEq

inductive GenErr where
  | rateLimit (msg : String)
  | other (msg : String)

/-- Behaviour of one `generate_stream` call: the tokens the model streams
and, optionally, the exception its `except` clause turns into a final error
token. -/
structure GenOutcome where
  tokens : List String
  err : Option GenErr

structure EngineOracle where
  stress : Assessment
  intent : ℕ → Intent
  precheck : ℕ → Except String (List PreChunk)
  tiers : ℕ → Option String → TierOutcome × TierOutcome
  tool : ℕ → ToolOracle
  gen : ℕ → GenOutcome
  agent : ℕ → List String × Option String
  evalRes : ℕ → String → EngineEval
  budget0 : Budget
  now : ℚ
  planningModel : String
  fastModel : String
  genModel : String

/-- The tool registry lines (`reasoning_engine.py` lines 63-71 / 233-241). -/
def toolLine1 : String :=
  "1. \"hybrid_retriever\": Search across Vector DB (semantic) and Relational DB (keywords). Use this for internal document knowledge."

def toolLine2 : String :=
  "2. \"web_search\": Search the live internet. Use this for real-time info or if internal documents are insufficient."

def toolLine3 : String :=
  "3. \"summarizer\": Generate summaries for retrieved content."

def toolLine4 : String :=
  "4. \"code_interpreter\": Execute Python code for calculations, data analysis, or logic."

def toolsList (withCode : Bool) : List String :=
  [toolLine1, toolLine2, toolLine3] ++ (if withCode then [toolLine4] else [])

mutual

/-- Source `re.findall(r'"([^"]+)"', text)`: all nonempty double-quoted runs,
non-overlapping, left to right. -/
def pyFindallQuoted : List Char → List String
  | [] => []
  | '"' :: t => quotedScan t []
  | _ :: t => pyFindallQuoted t

def quotedScan : List Char → List Char → List String
  | [], _ => []
  | '"' :: r, [] => quotedScan r []
  | '"' :: r, a :: as => String.mk ((a :: as).reverse) :: pyFindallQuoted r
  | c :: r, acc => quotedScan r (c :: acc)

end

/-- First-occurrence deduplication (the deterministic stand-in for
`set(...)`; membership is what the engine uses it for). -/
def dedupFirst (l : List String) : List String :=
  l.foldl (fun acc s => if s ∈ acc then acc else acc ++ [s]) []

/-- Source `allowed_tool_names` as the engine computes it (lines 73-75). -/
def allowedToolNames (withCode : Bool) : List String :=
  dedupFirst (pyFindallQuoted (String.intercalate "\n" (toolsList withCode)).toList)

/-- A validated plan step as the dict handed to the tool executor. -/
def stepToDict (s : PlanStep) : List (String × PyVal) :=
  [("step_id", .int s.step_id), ("tool", .str s.tool),
   ("input", .str s.input), ("reason", .str s.reason)]

/-- A step result as the dict handed to the grounding scorer. -/
def stepResToDict (r : StepResult) : List (String × PyVal) :=
  [("step_id", r.step_id), ("tool", r.tool), ("output", r.output)]

/-- Source `ConditionalRouter.route(plan, results)`
(`app/services/conditional_router.py`, lines 9-25). -/
def routeOf (results : List StepResult) : String :=
  if results.any (fun r => !(pyValBEq r.tool (.str "summarizer")) && pyTruthy r.output)
  then "generator" else "multi_agent_system"

/-- Source `final_response` accumulation: the concatenation of a token stream
(`final_response += token`). -/
def concatTokens : List String → String
  | [] => ""
  | t :: ts => t ++ concatTokens ts

/-- The token sequence `generate_stream` yields (`generator.py` lines
88-164), together with the updated lock table (the initial `can_use` check
mutates by lazy expiry; a rate-limit exception reports a 429). -/
def genStreamTokens (g : GenOutcome) (b : Budget) (now : ℚ) (genModel : String) :
    List String × Budget :=
  let b1 := (can_use b now genModel).2
  match g.err with
  | Option.none => (g.tokens, b1)
  | some (.rateLimit msg) =>
      (g.tokens ++
        ["[System Error] Rate limit exceeded for " ++ genModel ++ ". Please try again later."],
       report_429 b1 now genModel msg)
  | some (.other msg) =>
      (g.tokens ++ ["[System Error] Generation failed: " ++ msg], b1)

/-- The token-collection loop of buffered `generate` (`generator.py` lines
178-184): concatenate, but return the bare token — discarding the
accumulator — as soon as a token starts with `"[System Error]"`. -/
def generateCollectGo : String → List String → String
  | acc, [] => acc
  | acc, tok :: toks =>
      if pyStartsWith tok "[System Error]" then tok
      else generateCollectGo (acc ++ tok) toks

/-- Source `GeneratorService.generate(query, context)` (`generator.py` lines
166-184): one extra budget check, then collect the stream. -/
def generateBuffered (g : GenOutcome) (b : Budget) (now : ℚ) (genModel : String) :
    String × Budget :=
  let b1 := (can_use b now genModel).2
  let r := genStreamTokens g b1 now genModel
  (generateCollectGo "" r.1, r.2)

/-- Python `repr` of a list of strings (used in the critique f-strings). -/
def reprStrList (xs : List String) : String :=
  "[" ++ String.intercalate ", " (xs.map (fun s => "\x27" ++ s ++ "\x27")) ++ "]"

def regViolationCritique : String :=
  "Your previous plan failed: Registry Violation. You MUST use ONLY tool names from the provided JSON list."

def invalidToolsCritique (invalid allowed : List String) : String :=
  "Your previous plan used unknown or malformed tools: " ++ reprStrList invalid ++
  ". You MUST use ONLY: " ++ reprStrList allowed ++ " and ensure \x27input\x27 is a string."

/-- Source `final_attempt_data` when nonempty. -/
structure FinalData where
  plan : ExecutionPlan
  results : List StepResult
  response : String
  evaluation : EngineEval
  attempts : ℕ

/-- The loop variables both modes thread between attempts. -/
structure AttemptState where
  critique : Option String
  budget : Budget
  finalData : Option FinalData
  groundingScore : ℚ
  evaluation : EngineEval
  finalResponse : String
  results : List StepResult

def initEval : EngineEval := ⟨"Fail", "No valid plan generated."⟩

/-- Initial loop state of `process_query` (lines 39-44). -/
def initStateB (b : Budget) : AttemptState :=
  ⟨Option.none, b, Option.none, 0, initEval,
   "I encountered an internal error during planning.", []⟩

/-- Initial loop state of `process_query_stream` (lines 206-210). -/
def initStateS (b : Budget) : AttemptState :=
  ⟨Option.none, b, Option.none, 0, initEval, "", []⟩

/-- The early `return`s inside the buffered loop body. -/
inductive BEarly where
  | insufficientContext
  | retrievalUnavailable (msg : String)
  | refusal (msg : String)
  | planningExhausted (msg : String)
deriving DecidableEq

inductive BIterOut where
  | early (r : BEarly)
  | brk (st : AttemptState)
  | next (st : AttemptState)

/-- Per-iteration instrumentation: how often the planner and the gate
pre-check ran, the response/grounding pair when the evaluation phase was
reached, and the router's decision when routing was reached. -/
structure IterStats where
  plannerCalls : ℕ
  prechecks : ℕ
  evalInfo : Option (String × ℚ)
  routeDest : Option String

/-- The evaluation tail of the buffered loop body (`reasoning_engine.py`
lines 149-183): judge, grounding, the `<0.3` abort edge, the `<0.6`
override, recording `final_attempt_data`, and the break/critique decision. -/
def evalPhaseB (o : EngineOracle) (attempt : ℕ) (st : AttemptState)
    (plan : ExecutionPlan) (results : List StepResult) (resp : String)
    (b4 : Budget) (stats0 : IterStats) : BIterOut × IterStats :=
  let ev := o.evalRes attempt resp
  let g := calculate_grounding_score resp (results.map stepResToDict)
  let stats := { stats0 with evalInfo := some (resp, g) }
  if g < mkRat 3 10 then
    (.brk { st with
        budget := b4
        results := results
        finalResponse := resp
        groundingScore := g
        evaluation := ⟨"Fail",
          "Aborted due to critical grounding failure (" ++ toString g ++ ")."⟩ },
     stats)
  else
    let ev2 := if g < mkRat 3 5 then
        (⟨"Fail", ev.reasoning ++ " [System Critique: Low grounding score (" ++ toString g ++
          "). Response may be hallucinated.]"⟩ : EngineEval)
      else ev
    let fd : FinalData := ⟨plan, results, resp, ev2, attempt + 1⟩
    let st2 := { st with
      budget := b4
      results := results
      finalResponse := resp
      groundingScore := g
      evaluation := ev2
      finalData := some fd }
    if ev2.overall_grade = "Pass" ∨ attempt ≥ MAX_RETRIES then (.brk st2, stats)
    else (.next { st2 with critique := some ev2.reasoning }, stats)

/-- The planning-and-onwards part of the buffered loop body
(`reasoning_engine.py` lines 94-183).  The `isinstance` steps-list check of
line 111 is vacuous for the typed plans `create_plan` returns and the
`input`-type check of line 122 always passes for them, so only the
registry-membership check remains. -/
def iterBPlan (o : EngineOracle) (attempt : ℕ) (st : AttemptState)
    (allowed : List String) (availStr : String) (prechecks : ℕ) :
    BIterOut × IterStats :=
  let pr := create_plan availStr st.critique (o.tiers attempt st.critique) st.budget o.now
    o.planningModel o.fastModel
  let plan := pr.1
  let st1 := { st with budget := pr.2 }
  let stats : IterStats := ⟨1, prechecks, Option.none, Option.none⟩
  if plan.action = .refuse then
    (.early (.refusal plan.final_instruction), stats)
  else if plan.action = .registry_violation then
    if attempt = MAX_RETRIES then
      (.early (.planningExhausted
        "Repeated registry violations. Check tool configuration."), stats)
    else (.next { st1 with critique := some regViolationCritique }, stats)
  else
    let invalid := (plan.steps.filter (fun s => s.tool ∉ allowed)).map PlanStep.tool
    if invalid ≠ [] then
      if attempt = MAX_RETRIES then
        (.early (.planningExhausted
          ("Repeatedly produced invalid tools or inputs: " ++ reprStrList invalid)), stats)
      else (.next { st1 with critique := some (invalidToolsCritique invalid allowed) }, stats)
    else
      let results := executeSteps (o.tool attempt) (plan.steps.map stepToDict)
      let dest := routeOf results
      let stats2 := { stats with routeDest := some dest }
      if dest = "multi_agent_system" then
        evalPhaseB o attempt st1 plan results
          "Multi-Agent System handled this query." st1.budget stats2
      else
        let gr := generateBuffered (o.gen attempt) st1.budget o.now o.genModel
        evalPhaseB o attempt st1 plan results gr.1 gr.2 stats2

/-- One iteration of the buffered feedback loop (`reasoning_engine.py`
lines 47-183): circuit-breaker awareness, intent classification, dynamic
tool registry, the retrieval sufficiency gate, then planning. -/
def iterB (o : EngineOracle) (attempt : ℕ) (st : AttemptState) :
    BIterOut × IterStats :=
  let b1 := (can_use st.budget o.now o.planningModel).2
  let b2 := (can_use b1 o.now o.fastModel).2
  let intent := o.intent attempt
  let comp := intent.requires_computation
  let withCode := comp || intent.requires_external_execution
  let allowed := allowedToolNames withCode
  let availStr := String.intercalate "\n" (toolsList withCode)
  if comp = false then
    match o.precheck attempt with
    | .error e =>
        (.early (.retrievalUnavailable e), ⟨0, 1, Option.none, Option.none⟩)
    | .ok [] => (.early .insufficientContext, ⟨0, 1, Option.none, Option.none⟩)
    | .ok (c :: _) =>
        if effScore c < mkRat 3 4 then
          (.early .insufficientContext, ⟨0, 1, Option.none, Option.none⟩)
        else iterBPlan o attempt { st with budget := b2 } allowed availStr 1
  else iterBPlan o attempt { st with budget := b2 } allowed availStr 0

inductive BLoopExit where
  | early (r : BEarly)
  | fell (st : AttemptState) (lastAttempt : ℕ)

structure BLoopRes where
  exit : BLoopExit
  iters : ℕ
  plannerCalls : ℕ
  prechecks : ℕ

/-- The `for attempt in range(MAX_RETRIES + 1)` loop of `process_query`,
with fuel equal to the remaining iterations. -/
def loopB (o : EngineOracle) : ℕ → ℕ → AttemptState → BLoopRes
  | 0, attempt, st => ⟨.fell st (attempt - 1), 0, 0, 0⟩
  | fuel + 1, attempt, st =>
      match iterB o attempt st with
      | (.early r, s) => ⟨.early r, 1, s.plannerCalls, s.prechecks⟩
      | (.brk st2, s) => ⟨.fell st2 attempt, 1, s.plannerCalls, s.prechecks⟩
      | (.next st2, s) =>
          let r := loopB o fuel (attempt + 1) st2
          ⟨r.exit, r.iters + 1, r.plannerCalls + s.plannerCalls,
           r.prechecks + s.prechecks⟩

inductive EngineExn where
  | keyError (k : String)
deriving DecidableEq

inductive BOut where
  | securityBlock (reason threat : String)
  | early (r : BEarly)
  | final (d : FinalData) (lastAttempt : ℕ)

structure BRun where
  result : Except EngineExn BOut
  attempts : ℕ
  plannerCalls : ℕ
  prechecks : ℕ

/-- Source `ReasoningEngine.process_query(query)` (lines 21-192).  The
metrics-attachment step (line 187) subscripts `final_attempt_data
["evaluation"]`, which raises `KeyError` when the loop never recorded an
attempt; early `return`s inside the loop bypass it.  The human-validation
detour (lines 36-37) has no effect on the result. -/
def processQuery (o : EngineOracle) : BRun :=
  if o.stress.is_safe = false then
    ⟨.ok (.securityBlock o.stress.reasoning o.stress.threat_detected), 0, 0, 0⟩
  else
    let r := loopB o (MAX_RETRIES + 1) 0 (initStateB o.budget0)
    match r.exit with
    | .early e => ⟨.ok (.early e), r.iters, r.plannerCalls, r.prechecks⟩
    | .fell st lastA =>
        match st.finalData with
        | Option.none => ⟨.error (.keyError "evaluation"), r.iters,
            r.plannerCalls, r.prechecks⟩
        | some d => ⟨.ok (.final d lastA), r.iters, r.plannerCalls, r.prechecks⟩

/-! ### Streaming mode — `process_query_stream` (lines 194-389) -/

inductive Event where
  | security (a : Assessment)
  | status (content : String)
  | plan (p : ExecutionPlan)
  | stepResult (r : StepResult)
  | token (content : String)
  | evaluation (e : EngineEval) (grounding : ℚ) (lastAttempt : ℕ)
  | error (content : String)
  | complete

/-- Terminal events per the spec: `error` and `complete`. -/
def isTerminal : Event → Bool
  | .error _ => true
  | .complete => true
  | _ => false

/-- The budget status line (lines 219-225). -/
def budgetStatusMsg (o : EngineOracle) (st : AttemptState) : String :=
  let ok1 := (can_use st.budget o.now o.planningModel).1
  let active := if ok1 then o.planningModel else o.fastModel
  if active = o.planningModel then
    "Control Plane: Budget healthy. Ready for " ++ active ++ " tier."
  else "Control Plane: Failover active. Using " ++ active ++ " tier."

/-- The per-step `status` and `step_result` events (lines 326-331). -/
def stepEvents (tO : ToolOracle) : List PlanStep → List Event
  | [] => []
  | s :: rest =>
      Event.status ("Executing: " ++ s.reason) ::
      Event.stepResult (execute_step tO (stepToDict s)) ::
      stepEvents tO rest

/-- The loop-body result of one streaming iteration, before the trailing
`error` event of an early return is appended: `early msg` yields
`error(msg)` and returns, `raised` propagates an exception with no further
event. -/
inductive SIterCore where
  | early (msg : String)
  | brk (st : AttemptState)
  | next (st : AttemptState)
  | raised (exn : String)

/-- The evaluation tail of the streaming loop body (lines 350-373). -/
def evalPhaseS (o : EngineOracle) (attempt : ℕ) (st : AttemptState)
    (results : List StepResult) (resp : String) (b4 : Budget)
    (evts : List Event) (stats0 : IterStats) :
    List Event × SIterCore × IterStats :=
  let ev := o.evalRes attempt resp
  let g := calculate_grounding_score resp (results.map stepResToDict)
  let stats := { stats0 with evalInfo := some (resp, g) }
  if g < mkRat 3 10 then
    (evts,
     .brk { st with
        budget := b4
        results := results
        finalResponse := resp
        groundingScore := g
        evaluation := ⟨"Fail",
          "Aborted due to critical grounding failure (" ++ toString g ++ ")."⟩ },
     stats)
  else
    let ev2 := if g < mkRat 3 5 then
        (⟨"Fail", ev.reasoning ++ " [System Critique: Low grounding score (" ++ toString g ++
          "). Response may be hallucinated.]"⟩ : EngineEval)
      else ev
    let st2 := { st with
      budget := b4
      results := results
      finalResponse := resp
      groundingScore := g
      evaluation := ev2 }
    if ev2.overall_grade = "Pass" ∨ attempt ≥ MAX_RETRIES then (evts, .brk st2, stats)
    else (evts, .next { st2 with critique := some ev2.reasoning }, stats)

/-- The planning-and-onwards part of the streaming loop body (lines
278-373).  The multi-agent path (lines 339-342) streams
`multi_agent_system.execute_task_stream`, whose model calls have no
exception handler: a raised exception propagates out of the generator. -/
def iterSPlan (o : EngineOracle) (attempt : ℕ) (st : AttemptState)
    (allowed : List String) (availStr : String) (prechecks : ℕ)
    (evts0 : List Event) : List Event × SIterCore × IterStats :=
  let evts1 := evts0 ++ [Event.status "Planning execution strategy..."]
  let pr := create_plan availStr st.critique (o.tiers attempt st.critique) st.budget o.now
    o.planningModel o.fastModel
  let plan := pr.1
  let st1 := { st with budget := pr.2 }
  let stats : IterStats := ⟨1, prechecks, Option.none, Option.none⟩
  if plan.action = .refuse then
    (evts1, .early ("Refusal: " ++ plan.final_instruction), stats)
  else if plan.action = .registry_violation then
    if attempt = MAX_RETRIES then
      (evts1, .early "Planning Exhausted: Repeated registry violations.", stats)
    else
      (evts1 ++ [.status "⚠️ Plan rejected: Tool Registry Violation. Re-aligning..."],
       .next { st1 with critique := some regViolationCritique }, stats)
  else
    let invalid := (plan.steps.filter (fun s => s.tool ∉ allowed)).map PlanStep.tool
    if invalid ≠ [] then
      if attempt = MAX_RETRIES then
        (evts1, .early ("Planning Exhausted: Repeatedly produced invalid tools or inputs " ++
          reprStrList invalid ++ "."), stats)
      else
        (evts1 ++ [.status ("⚠️ Plan rejected: Invalid tools or inputs " ++
           reprStrList invalid ++ " used. Re-aligning...")],
         .next { st1 with critique := some (invalidToolsCritique invalid allowed) }, stats)
    else
      let results := executeSteps (o.tool attempt) (plan.steps.map stepToDict)
      let evts2 := evts1 ++ [Event.plan plan] ++ stepEvents (o.tool attempt) plan.steps
      let dest := routeOf results
      let evts3 := evts2 ++ [Event.status ("Routing to: " ++ dest)]
      let stats2 := { stats with routeDest := some dest }
      if dest = "multi_agent_system" then
        let ag := o.agent attempt
        let evts4 := evts3 ++ ag.1.map Event.token
        match ag.2 with
        | some exn => (evts4, .raised exn, stats2)
        | Option.none =>
            evalPhaseS o attempt st1 results (concatTokens ag.1) st1.budget evts4 stats2
      else
        let gr := genStreamTokens (o.gen attempt) st1.budget o.now o.genModel
        let evts4 := evts3 ++ gr.1.map Event.token
        evalPhaseS o attempt st1 results (concatTokens gr.1) gr.2 evts4 stats2

/-- One iteration of the streaming feedback loop (lines 213-373). -/
def iterS (o : EngineOracle) (attempt : ℕ) (st : AttemptState) :
    List Event × SIterCore × IterStats :=
  let retryEvts : List Event :=
    if attempt > 0 then
      [.status ("🔄 Quality check failed. Re-planning attempt " ++
        toString (attempt + 1) ++ "...")]
    else []
  let evts0 := retryEvts ++ [Event.status (budgetStatusMsg o st)]
  let b1 := (can_use st.budget o.now o.planningModel).2
  let b2 := (can_use b1 o.now o.fastModel).2
  let intent := o.intent attempt
  let comp := intent.requires_computation
  let withCode := comp || intent.requires_external_execution
  let allowed := allowedToolNames withCode
  let availStr := String.intercalate "\n" (toolsList withCode)
  if comp = false then
    match o.precheck attempt with
    | .error e =>
        (evts0, .early ("Retrieval system unavailable: " ++ e),
         ⟨0, 1, Option.none, Option.none⟩)
    | .ok [] =>
        (evts0, .early "The provided documents do not contain relevant information.",
         ⟨0, 1, Option.none, Option.none⟩)
    | .ok (c :: _) =>
        if effScore c < mkRat 3 4 then
          (evts0, .early "The provided documents do not contain relevant information.",
           ⟨0, 1, Option.none, Option.none⟩)
        else iterSPlan o attempt { st with budget := b2 } allowed availStr 1 evts0
  else iterSPlan o attempt { st with budget := b2 } allowed availStr 0 evts0

inductive SLoopExit where
  | early
  | fell (st : AttemptState) (lastAttempt : ℕ)
  | raised (exn : String)

structure SLoopRes where
  events : List Event
  exit : SLoopExit
  iters : ℕ
  plannerCalls : ℕ
  prechecks : ℕ

/-- The `for attempt in range(MAX_RETRIES + 1)` loop of
`process_query_stream`. -/
def loopS (o : EngineOracle) : ℕ → ℕ → AttemptState → SLoopRes
  | 0, attempt, st => ⟨[], .fell st (attempt - 1), 0, 0, 0⟩
  | fuel + 1, attempt, st =>
      match iterS o attempt st with
      | (evts, .early msg, s) =>
          ⟨evts ++ [.error msg], .early, 1, s.plannerCalls, s.prechecks⟩
      | (evts, .raised e, s) => ⟨evts, .raised e, 1, s.plannerCalls, s.prechecks⟩
      | (evts, .brk st2, s) => ⟨evts, .fell st2 attempt, 1, s.plannerCalls, s.prechecks⟩
      | (evts, .next st2, s) =>
          let r := loopS o fuel (attempt + 1) st2
          ⟨evts ++ r.events, r.exit, r.iters + 1, r.plannerCalls + s.plannerCalls,
           r.prechecks + s.prechecks⟩

structure SRun where
  events : List Event
  exn : Option String
  attempts : ℕ
  plannerCalls : ℕ
  prechecks : ℕ

/-- Source `ReasoningEngine.process_query_stream(query)` (lines 194-389): the
`security` event, the loop, then — when the loop finishes without an early
return or an escaping exception — the `evaluation` event with metrics and
the `complete` event. -/
def processQueryStream (o : EngineOracle) : SRun :=
  let secEvt := Event.security o.stress
  if o.stress.is_safe = false then
    ⟨[secEvt, .error ("Security Block: " ++ o.stress.reasoning)],
     Option.none, 0, 0, 0⟩
  else
    let r := loopS o (MAX_RETRIES + 1) 0 (initStateS o.budget0)
    match r.exit with
    | .early => ⟨secEvt :: r.events, Option.none, r.iters, r.plannerCalls, r.prechecks⟩
    | .raised e => ⟨secEvt :: r.events, some e, r.iters, r.plannerCalls, r.prechecks⟩
    | .fell st lastA =>
        ⟨secEvt :: (r.events ++
          [Event.evaluation st.evaluation st.groundingScore lastA, Event.complete]),
         Option.none, r.iters, r.plannerCalls, r.prechecks⟩

/-! ## Claim C2 — bounded retries -/

/-- Auxiliary: the buffered loop performs at most `fuel` iterations. -/
theorem loopB_iters_le (o : EngineOracle) :
    ∀ (fuel attempt : ℕ) (st : AttemptState), (loopB o fuel attempt st).iters ≤ fuel := by
  intro fuel
  induction fuel with
  | zero => intro a st; exact Nat.le_refl 0
  | succ n ih =>
      intro a st
      unfold loopB
      rcases hi : iterB o a st with ⟨out, s⟩
      cases out with
      | early r => simp
      | brk st2 => simp
      | next st2 =>
          dsimp only
          have := ih (a + 1) st2
          omega

/-- Auxiliary: the streaming loop performs at most `fuel` iterations. -/
theorem loopS_iters_le (o : EngineOracle) :
    ∀ (fuel attempt : ℕ) (st : AttemptState), (loopS o fuel attempt st).iters ≤ fuel := by
  intro fuel
  induction fuel with
  | zero => intro a st; exact Nat.le_refl 0
  | succ n ih =>
      intro a st
      unfold loopS
      rcases hi : iterS o a st with ⟨evts, core, s⟩
      cases core with
      | early msg => simp
      | raised e => simp
      | brk st2 => simp
      | next st2 =>
          dsimp only
          have := ih (a + 1) st2
          omega

/-- C2: for every collaborator behaviour — in particular for every evaluator
behaviour, including one that fails every attempt — both the buffered and
the streaming feedback loop perform at most `MAX_RETRIES + 1` attempts, and
`MAX_RETRIES + 1 = 3` with the engine's default `MAX_RETRIES = 2`.
Termination itself is the totality of `processQuery` and
`processQueryStream` as Lean functions. -/
theorem c2_bounded_attempts (o : EngineOracle) :
    (processQuery o).attempts ≤ MAX_RETRIES + 1 ∧
    (processQueryStream o).attempts ≤ MAX_RETRIES + 1 ∧
    MAX_RETRIES + 1 = 3 := by
  refine ⟨?_, ?_, rfl⟩
  · unfold processQuery
    split
    · exact Nat.zero_le _
    · dsimp only
      have h := loopB_iters_le o (MAX_RETRIES + 1) 0 (initStateB o.budget0)
      cases hE : (loopB o (MAX_RETRIES + 1) 0 (initStateB o.budget0)).exit with
      | early e => simp only [hE]; exact h
      | fell st la =>
          simp only [hE]
          cases st.finalData <;> exact h
  · unfold processQueryStream
    split
    · exact Nat.zero_le _
    · dsimp only
      have h := loopS_iters_le o (MAX_RETRIES + 1) 0 (initStateS o.budget0)
      cases hE : (loopS o (MAX_RETRIES + 1) 0 (initStateS o.budget0)).exit with
      | early => simp only [hE]; exact h
      | fell st la => simp only [hE]; exact h
      | raised e => simp only [hE]; exact h

/-! ## Claim C3 — retrieval sufficiency gate -/

/-- C3: whenever the screener passes the query and the classifier reports
that computation is not required, the engine runs the gate pre-check once,
and if it returns zero passages — or a top passage whose effective score is
below `0.75` (`mkRat 3 4`) — both modes terminate immediately with the
insufficient-context result, with exactly one attempt, one pre-check and
zero planner invocations. -/
theorem c3_retrieval_gate (o : EngineOracle)
    (hsafe : o.stress.is_safe = true)
    (hcomp : (o.intent 0).requires_computation = false)
    (hgate : o.precheck 0 = .ok [] ∨
      ∃ c rest, o.precheck 0 = .ok (c :: rest) ∧ effScore c < mkRat 3 4) :
    processQuery o = ⟨.ok (.early .insufficientContext), 1, 0, 1⟩ ∧
    processQueryStream o =
      ⟨[Event.security o.stress,
        Event.status (budgetStatusMsg o (initStateS o.budget0)),
        Event.error "The provided documents do not contain relevant information."],
       Option.none, 1, 0, 1⟩ := by
  have hiterB : iterB o 0 (initStateB o.budget0) =
      (.early .insufficientContext, ⟨0, 1, Option.none, Option.none⟩) := by
    unfold iterB
    dsimp only
    rw [hcomp]
    simp only [if_pos]
    rcases hgate with hg | ⟨c, rest, hg, hlt⟩
    · rw [hg]
    · rw [hg]
      dsimp only
      rw [if_pos hlt]
  have hiterS : iterS o 0 (initStateS o.budget0) =
      ([Event.status (budgetStatusMsg o (initStateS o.budget0))],
       .early "The provided documents do not contain relevant information.",
       ⟨0, 1, Option.none, Option.none⟩) := by
    unfold iterS
    dsimp only
    rw [hcomp]
    simp only [if_pos]
    rcases hgate with hg | ⟨c, rest, hg, hlt⟩
    · rw [hg]
      simp
    · rw [hg]
      dsimp only
      rw [if_pos hlt]
      simp
  constructor
  · unfold processQuery
    rw [hsafe]
    simp only [Bool.true_eq_false, if_false]
    have hloop : loopB o (MAX_RETRIES + 1) 0 (initStateB o.budget0) =
        ⟨.early .insufficientContext, 1, 0, 1⟩ := by
      unfold loopB
      rw [hiterB]
    rw [hloop]
  · unfold processQueryStream
    rw [hsafe]
    simp only [Bool.true_eq_false, if_false]
    have hloop : loopS o (MAX_RETRIES + 1) 0 (initStateS o.budget0) =
        ⟨[Event.status (budgetStatusMsg o (initStateS o.budget0)),
          Event.error "The provided documents do not contain relevant information."],
         .early, 1, 0, 1⟩ := by
      unfold loopS
      rw [hiterS]
      rfl
    rw [hloop]

/-- The oracle of a query whose gate pre-check finds no passage: screener
passes, classifier reports no computation, retrieval returns nothing. -/
def oGateEmpty : EngineOracle := {
  stress := ⟨true, "None", 0, "ok"⟩
  intent := fun _ => ⟨false, false⟩
  precheck := fun _ => .ok []
  tiers := fun _ _ => (.schemaInvalid, .schemaInvalid)
  tool := fun _ => ⟨fun _ => .error "unused", fun _ => .error "unused"⟩
  gen := fun _ => ⟨[], Option.none⟩
  agent := fun _ => ([], Option.none)
  evalRes := fun _ _ => ⟨"Fail", "bad"⟩
  budget0 := []
  now := 0
  planningModel := "planning-model"
  fastModel := "fast-model"
  genModel := "gen-model" }

/-- C3, witness: the gate theorem applied to `oGateEmpty`. -/
theorem c3_witness :
    processQuery oGateEmpty = ⟨.ok (.early .insufficientContext), 1, 0, 1⟩ ∧
    processQueryStream oGateEmpty =
      ⟨[Event.security oGateEmpty.stress,
        Event.status (budgetStatusMsg oGateEmpty (initStateS oGateEmpty.budget0)),
        Event.error "The provided documents do not contain relevant information."],
       Option.none, 1, 0, 1⟩ :=
  c3_retrieval_gate oGateEmpty rfl rfl (Or.inl rfl)

/-! ## Claim C10 — first-attempt grounding abort raises KeyError -/

/-- Auxiliary: the evaluation tail reports exactly the produced response and
its grounding score. -/
theorem evalPhaseB_evalInfo (o : EngineOracle) (attempt : ℕ) (st : AttemptState)
    (plan : ExecutionPlan) (results : List StepResult) (resp : String)
    (b4 : Budget) (stats0 : IterStats) :
    (evalPhaseB o attempt st plan results resp b4 stats0).2.evalInfo =
      some (resp, calculate_grounding_score resp (results.map stepResToDict)) := by
  unfold evalPhaseB
  dsimp only
  split
  · rfl
  · split <;> split <;> rfl

/-- Auxiliary: on a grounding score below `0.3` the evaluation tail breaks
out of the loop without recording `final_attempt_data`. -/
theorem evalPhaseB_abort (o : EngineOracle) (attempt : ℕ) (st : AttemptState)
    (plan : ExecutionPlan) (results : List StepResult) (resp : String)
    (b4 : Budget) (stats0 : IterStats)
    (h : calculate_grounding_score resp (results.map stepResToDict) < mkRat 3 10) :
    ∃ st2, (evalPhaseB o attempt st plan results resp b4 stats0).1 = .brk st2 ∧
      st2.finalData = st.finalData := by
  unfold evalPhaseB
  dsimp only
  rw [if_pos h]
  exact ⟨_, rfl, rfl⟩

/-- Auxiliary: if an iteration of `iterBPlan` reached evaluation with a
response whose grounding score is below `0.3`, the iteration breaks and the
recorded attempt data is unchanged. -/
theorem iterBPlan_evalInfo_abort (o : EngineOracle) (attempt : ℕ)
    (st : AttemptState) (allowed : List String) (availStr : String)
    (prechecks : ℕ) (resp : String) (g : ℚ) :
    (iterBPlan o attempt st allowed availStr prechecks).2.evalInfo = some (resp, g) →
    g < mkRat 3 10 →
    ∃ st2, (iterBPlan o attempt st allowed availStr prechecks).1 = .brk st2 ∧
      st2.finalData = st.finalData := by
  unfold iterBPlan
  dsimp only
  split
  · intro hinfo _
    simp at hinfo
  · split
    · split
      · intro hinfo _; simp at hinfo
      · intro hinfo _; simp at hinfo
    · split
      · split
        · intro hinfo _; simp at hinfo
        · intro hinfo _; simp at hinfo
      · split
        · intro hinfo habort
          rw [evalPhaseB_evalInfo] at hinfo
          injection hinfo with hpair
          have hresp := congrArg Prod.fst hpair
          have hg := congrArg Prod.snd hpair
          dsimp only at hresp hg
          subst hresp
          exact evalPhaseB_abort o attempt _ _ _ _ _ _ (by rw [hg]; exact habort)
        · intro hinfo habort
          rw [evalPhaseB_evalInfo] at hinfo
          injection hinfo with hpair
          have hresp := congrArg Prod.fst hpair
          have hg := congrArg Prod.snd hpair
          dsimp only at hresp hg
          subst hresp
          exact evalPhaseB_abort o attempt _ _ _ _ _ _ (by rw [hg]; exact habort)

/-- Auxiliary: the same for a whole buffered iteration. -/
theorem iterB_evalInfo_abort (o : EngineOracle) (attempt : ℕ)
    (st : AttemptState) (resp : String) (g : ℚ) :
    (iterB o attempt st).2.evalInfo = some (resp, g) → g < mkRat 3 10 →
    ∃ st2, (iterB o attempt st).1 = .brk st2 ∧ st2.finalData = st.finalData := by
  unfold iterB
  dsimp only
  split
  · split
    · intro hinfo _; simp at hinfo
    · intro hinfo _; simp at hinfo
    · split
      · intro hinfo _; simp at hinfo
      · exact fun hinfo habort =>
          iterBPlan_evalInfo_abort o attempt _ _ _ _ resp g hinfo habort
  · exact fun hinfo habort =>
      iterBPlan_evalInfo_abort o attempt _ _ _ _ resp g hinfo habort

/-- C10: in the buffered mode, when the very first attempt reaches
evaluation and its response's grounding score is below `0.3`, the abort
edge leaves the loop before `final_attempt_data` is recorded, and the
metrics-attachment step raises `KeyError` on the empty dict: the caller
gets an exception, not the documented final structure. -/
theorem c10_grounding_abort_keyerror (o : EngineOracle)
    (hsafe : o.stress.is_safe = true) (resp : String) (g : ℚ)
    (hinfo : (iterB o 0 (initStateB o.budget0)).2.evalInfo = some (resp, g))
    (habort : g < mkRat 3 10) :
    (processQuery o).result = .error (.keyError "evaluation") ∧
    (processQuery o).attempts = 1 := by
  obtain ⟨st2, hb, hfd⟩ := iterB_evalInfo_abort o 0 (initStateB o.budget0) resp g hinfo habort

  rcases hi : iterB o 0 (initStateB o.budget0) with ⟨out, s⟩
  rw [hi] at hb
  dsimp only at hb
  subst hb
  have hloop : loopB o (MAX_RETRIES + 1) 0 (initStateB o.budget0) =
      ⟨.fell st2 0, 1, s.plannerCalls, s.prechecks⟩ := by
    unfold loopB
    rw [hi]
  have hfdnone : st2.finalData = Option.none := by
    rw [hfd]; rfl
  unfold processQuery
  rw [hsafe]
  simp only [Bool.true_eq_false, if_false]
  rw [hloop]
  dsimp only
  rw [hfdnone]
  exact ⟨rfl, rfl⟩

/-- The oracle of a safe computational query whose generated answer shares no
token with the tool outputs: one `code_interpreter` step, response
`"blah blah"`, grounding `0`. -/
def oC10 : EngineOracle := {
  stress := ⟨true, "None", 0, "ok"⟩
  intent := fun _ => ⟨true, false⟩
  precheck := fun _ => .ok []
  tiers := fun _ _ => (.valid ⟨"analysis", .execute,
    [⟨1, "code_interpreter", "2+2", "calculate"⟩], "synthesize"⟩, .schemaInvalid)
  tool := fun _ => ⟨fun _ => .error "unused", fun _ => .error "unused"⟩
  gen := fun _ => ⟨["blah blah"], Option.none⟩
  agent := fun _ => ([], Option.none)
  evalRes := fun _ _ => ⟨"Fail", "bad"⟩
  budget0 := []
  now := 0
  planningModel := "planning-model"
  fastModel := "fast-model"
  genModel := "gen-model" }

/-- C10, witness: the abort theorem applied to `oC10`, whose first attempt
evaluates the ungrounded response `"blah blah"` with grounding score `0`. -/
theorem c10_witness :
    (processQuery oC10).result = .error (.keyError "evaluation") ∧
    (processQuery oC10).attempts = 1 :=
  c10_grounding_abort_keyerror oC10 rfl "blah blah" 0 (by decide) (by decide)

/-! ## Claim C7 — buffered vs streaming answer content -/

/-- The concatenation of a run's `token` events. -/
def tokenConcat (evts : List Event) : String :=
  concatTokens (evts.filterMap (fun e =>
    match e with | .token c => some c | _ => Option.none))

/-- The buffered run's answer, when it produced a final structure. -/
def bufferedResponseOf (r : BRun) : Option String :=
  match r.result with
  | .ok (.final d _) => some d.response
  | _ => Option.none

/-- The oracle of a safe computational query whose single plan step is a
summarizer (so the router escalates to the multi-agent system), with the
multi-agent collaborator streaming a real answer. -/
def oC7 : EngineOracle := {
  stress := ⟨true, "None", 0, "ok"⟩
  intent := fun _ => ⟨true, false⟩
  precheck := fun _ => .ok []
  tiers := fun _ _ => (.valid ⟨"analysis", .execute,
    [⟨1, "summarizer", "Multi-Agent System handled this query", "summarize input"⟩],
    "synthesize"⟩, .schemaInvalid)
  tool := fun _ => ⟨fun _ => .error "unused", fun _ => .error "unused"⟩
  gen := fun _ => ⟨[], Option.none⟩
  agent := fun _ => (["Deep", " synthesis", " answer"], Option.none)
  evalRes := fun _ r => if r = "Multi-Agent System handled this query." then ⟨"Pass", "good"⟩
    else ⟨"Fail", "ungrounded"⟩
  budget0 := []
  now := 0
  planningModel := "planning-model"
  fastModel := "fast-model"
  genModel := "gen-model" }

/-- C7, counterexample.  With identical collaborator behaviour (`oC7`), the
router selects the multi-agent path in both modes, yet the buffered mode's
final response is the hardcoded placeholder
`"Multi-Agent System handled this query."` (line 144) while the streaming
mode's token events concatenate to the multi-agent collaborator's actual
answer — the two modes do not produce identical answer content. -/
theorem c7_counterexample :
    bufferedResponseOf (processQuery oC7) =
      some "Multi-Agent System handled this query." ∧
    tokenConcat (processQueryStream oC7).events = "Deep synthesis answer" ∧
    ("Multi-Agent System handled this query." : String) ≠ "Deep synthesis answer" :=
  ⟨by decide, by decide, by decide⟩

/-- Auxiliary: buffered collection of an error-free token stream is plain
concatenation. -/
theorem generateCollectGo_concat (toks : List String) :
    ∀ acc, (∀ t ∈ toks, pyStartsWith t "[System Error]" = false) →
      generateCollectGo acc toks = acc ++ concatTokens toks := by
  induction toks with
  | nil =>
      intro acc _
      show acc = acc ++ ""
      simp
  | cons t ts ih =>
      intro acc h
      unfold generateCollectGo
      rw [h t (List.mem_cons_self t ts)]
      simp only [Bool.false_eq_true, if_false]
      rw [ih (acc ++ t) (fun x hx => h x (List.mem_cons_of_mem _ hx))]
      show acc ++ t ++ concatTokens ts = acc ++ (t ++ concatTokens ts)
      rw [String.append_assoc]

/-- Auxiliary: on a clean stream the buffered `generate` result is the plain
concatenation of the streamed tokens. -/
theorem generateBuffered_concat (g : GenOutcome) (b : Budget) (now : ℚ)
    (model : String)
    (herr : g.err = Option.none)
    (htok : ∀ t ∈ g.tokens, pyStartsWith t "[System Error]" = false) :
    (generateBuffered g b now model).1 = concatTokens (genStreamTokens g b now model).1 := by
  unfold generateBuffered genStreamTokens
  rw [herr]
  dsimp only
  rw [generateCollectGo_concat g.tokens "" htok]
  exact String.empty_append _

/-- Auxiliary: token concatenation distributes over list append. -/
theorem concatTokens_append (l1 l2 : List String) :
    concatTokens (l1 ++ l2) = concatTokens l1 ++ concatTokens l2 := by
  induction l1 with
  | nil =>
      show concatTokens l2 = "" ++ concatTokens l2
      rw [String.empty_append]
  | cons t ts ih =>
      show t ++ concatTokens (ts ++ l2) = t ++ concatTokens ts ++ concatTokens l2
      rw [ih, String.append_assoc]

/-- Auxiliary: the `token`-event concatenation of an event list distributes
over append. -/
theorem tokenConcat_append (l1 l2 : List Event) :
    tokenConcat (l1 ++ l2) = tokenConcat l1 ++ tokenConcat l2 := by
  unfold tokenConcat
  rw [List.filterMap_append, concatTokens_append]

/-- Auxiliary: a lone `status` event carries no token content. -/
theorem tokenConcat_status (s : String) : tokenConcat [Event.status s] = "" := rfl

/-- Auxiliary: a lone `plan` event carries no token content. -/
theorem tokenConcat_plan (p : ExecutionPlan) : tokenConcat [Event.plan p] = "" := rfl

/-- Auxiliary: the per-step events carry no token content. -/
theorem tokenConcat_stepEvents (tO : ToolOracle) (steps : List PlanStep) :
    tokenConcat (stepEvents tO steps) = "" := by
  induction steps with
  | nil => rfl
  | cons s rest ih =>
      show tokenConcat (stepEvents tO rest) = ""
      exact ih

/-- Auxiliary: the `token`-event concatenation of a pure token block is the
concatenation of its contents. -/
theorem tokenConcat_map_token (l : List String) :
    tokenConcat (l.map Event.token) = concatTokens l := by
  induction l with
  | nil => rfl
  | cons t ts ih =>
      show t ++ tokenConcat (ts.map Event.token) = t ++ concatTokens ts
      rw [ih]

/-- Auxiliary: the streaming evaluation tail emits nothing of its own. -/
theorem evalPhaseS_events (o : EngineOracle) (a : ℕ) (st : AttemptState)
    (results : List StepResult) (resp : String) (b4 : Budget)
    (evts : List Event) (stats0 : IterStats) :
    (evalPhaseS o a st results resp b4 evts stats0).1 = evts := by
  unfold evalPhaseS
  dsimp only
  split
  · rfl
  · split <;> split <;> rfl

/-- Auxiliary: the streaming evaluation tail records the response it judged
and its grounding score. -/
theorem evalPhaseS_evalInfo (o : EngineOracle) (a : ℕ) (st : AttemptState)
    (results : List StepResult) (resp : String) (b4 : Budget)
    (evts : List Event) (stats0 : IterStats) :
    (evalPhaseS o a st results resp b4 evts stats0).2.2.evalInfo =
      some (resp, calculate_grounding_score resp (results.map stepResToDict)) := by
  unfold evalPhaseS
  dsimp only
  split
  · rfl
  · split <;> split <;> rfl

/-- C7 (amended): the answer content of the two modes coincides exactly on
the direct-generator path with a clean stream.  Part one: when the
generation stream raises no exception and none of its tokens begins with
`"[System Error]"`, the buffered `generate` result equals the concatenation
of the tokens the streaming mode emits as `token` events.  Part two, the
per-attempt lockstep: on any attempt whose plan is a valid `execute` plan
with registry-valid steps and whose router does not select the multi-agent
path, the streaming iteration's evaluation phase judges exactly the same
response with the same grounding score as the buffered iteration's, and the
`token` events the streaming iteration emits concatenate to that very
response.  (On the multi-agent path the buffered mode substitutes a fixed
placeholder, and on a mid-stream failure it returns only the error token,
discarding earlier tokens the streaming mode already emitted.) -/
theorem c7_mode_equivalence_amended :
    (∀ (g : GenOutcome) (b : Budget) (now : ℚ) (model : String),
      g.err = Option.none →
      (∀ t ∈ g.tokens, pyStartsWith t "[System Error]" = false) →
      (generateBuffered g b now model).1 =
        concatTokens (genStreamTokens g b now model).1) ∧
    (∀ (o : EngineOracle) (a : ℕ) (st : AttemptState) (allowed : List String)
      (availStr : String) (pc : ℕ) (evts0 : List Event),
      (o.gen a).err = Option.none →
      (∀ t ∈ (o.gen a).tokens, pyStartsWith t "[System Error]" = false) →
      (create_plan availStr st.critique (o.tiers a st.critique) st.budget o.now
        o.planningModel o.fastModel).1.action = PlannerAction.execute →
      ((create_plan availStr st.critique (o.tiers a st.critique) st.budget o.now
        o.planningModel o.fastModel).1.steps.filter (fun s => s.tool ∉ allowed)) = [] →
      routeOf (executeSteps (o.tool a)
        ((create_plan availStr st.critique (o.tiers a st.critique) st.budget o.now
          o.planningModel o.fastModel).1.steps.map stepToDict)) ≠ "multi_agent_system" →
      tokenConcat evts0 = "" →
      (iterSPlan o a st allowed availStr pc evts0).2.2.evalInfo =
        (iterBPlan o a st allowed availStr pc).2.evalInfo ∧
      ∀ resp gsc,
        (iterSPlan o a st allowed availStr pc evts0).2.2.evalInfo = some (resp, gsc) →
        tokenConcat (iterSPlan o a st allowed availStr pc evts0).1 = resp) := by
  constructor
  · exact fun g b now model herr htok => generateBuffered_concat g b now model herr htok
  · intro o a st allowed availStr pc evts0 herr htok hact hfil hroute h0
    have hnr : ¬ ((create_plan availStr st.critique (o.tiers a st.critique) st.budget o.now
        o.planningModel o.fastModel).1.action = PlannerAction.refuse) := fun h => by
      rw [hact] at h
      exact PlannerAction.noConfusion h
    have hnv : ¬ ((create_plan availStr st.critique (o.tiers a st.critique) st.budget o.now
        o.planningModel o.fastModel).1.action = PlannerAction.registry_violation) := fun h => by
      rw [hact] at h
      exact PlannerAction.noConfusion h
    have hinv : (((create_plan availStr st.critique (o.tiers a st.critique) st.budget o.now
        o.planningModel o.fastModel).1.steps.filter
          (fun s => s.tool ∉ allowed)).map PlanStep.tool) = [] := by
      rw [hfil]
      rfl
    have hninv : ¬ ((((create_plan availStr st.critique (o.tiers a st.critique) st.budget o.now
        o.planningModel o.fastModel).1.steps.filter
          (fun s => s.tool ∉ allowed)).map PlanStep.tool) ≠ []) := fun h => h hinv
    have hresp : (generateBuffered (o.gen a)
          (create_plan availStr st.critique (o.tiers a st.critique) st.budget o.now
            o.planningModel o.fastModel).2 o.now o.genModel).1 =
        concatTokens (genStreamTokens (o.gen a)
          (create_plan availStr st.critique (o.tiers a st.critique) st.budget o.now
            o.planningModel o.fastModel).2 o.now o.genModel).1 :=
      generateBuffered_concat _ _ _ _ herr htok
    refine ⟨?_, ?_⟩
    · unfold iterBPlan iterSPlan
      dsimp only
      rw [if_neg hnr, if_neg hnv, if_neg hninv, if_neg hroute]
      rw [if_neg hnr, if_neg hnv, if_neg hninv, if_neg hroute]
      rw [evalPhaseS_evalInfo, evalPhaseB_evalInfo, hresp]
    · intro resp gsc hinfo
      unfold iterSPlan at hinfo ⊢
      dsimp only at hinfo ⊢
      rw [if_neg hnr, if_neg hnv, if_neg hninv, if_neg hroute] at hinfo ⊢
      rw [evalPhaseS_evalInfo] at hinfo
      injection hinfo with hpair
      have hr := congrArg Prod.fst hpair
      dsimp only at hr
      rw [evalPhaseS_events]
      simp only [tokenConcat_append, tokenConcat_status, tokenConcat_plan,
        tokenConcat_stepEvents, tokenConcat_map_token, h0, String.empty_append]
      exact hr

/-- C7, witness: part one at a concrete clean stream, and part two at the
concrete computational oracle `oC10`, whose single `code_interpreter` step
routes to the generator. -/
theorem c7_witness :
    (generateBuffered ⟨["Hello ", "world"], Option.none⟩ [] 0 "gen-model").1
      = concatTokens (genStreamTokens ⟨["Hello ", "world"], Option.none⟩ [] 0 "gen-model").1 ∧
    (iterSPlan oC10 0 (initStateS []) (allowedToolNames true)
        (String.intercalate "\n" (toolsList true)) 0 []).2.2.evalInfo =
      (iterBPlan oC10 0 (initStateS []) (allowedToolNames true)
        (String.intercalate "\n" (toolsList true)) 0).2.evalInfo := by
  obtain ⟨h1, h2⟩ := c7_mode_equivalence_amended
  refine ⟨h1 ⟨["Hello ", "world"], Option.none⟩ [] 0 "gen-model" rfl (by decide), ?_⟩
  exact (h2 oC10 0 (initStateS []) (allowedToolNames true)
    (String.intercalate "\n" (toolsList true)) 0 [] rfl (by decide) (by decide) (by decide)
    (by decide) rfl).1

/-! ## Claim C8 — exactly one terminal event per streamed request -/

/-- Auxiliary: terminal-freeness is preserved by list append. -/
theorem terminal_free_append (l1 l2 : List Event)
    (h1 : ∀ e ∈ l1, isTerminal e = false) (h2 : ∀ e ∈ l2, isTerminal e = false) :
    ∀ e ∈ l1 ++ l2, isTerminal e = false := by
  intro e he
  rcases List.mem_append.mp he with h | h
  · exact h1 e h
  · exact h2 e h

/-- Auxiliary: a lone `status` event is not terminal. -/
theorem terminal_free_status (s : String) :
    ∀ e ∈ [Event.status s], isTerminal e = false := by
  intro e he
  simp only [List.mem_singleton] at he
  subst he
  rfl

/-- Auxiliary: `token` events are not terminal. -/
theorem terminal_free_tokens (l : List String) :
    ∀ e ∈ l.map Event.token, isTerminal e = false := by
  intro e he
  rcases List.mem_map.mp he with ⟨c, _, rfl⟩
  rfl

/-- Auxiliary: the per-step events are not terminal. -/
theorem stepEvents_terminal_free (tO : ToolOracle) :
    ∀ (steps : List PlanStep), ∀ e ∈ stepEvents tO steps, isTerminal e = false := by
  intro steps
  induction steps with
  | nil => intro e he; simp [stepEvents] at he
  | cons s rest ih =>
      intro e he
      simp only [stepEvents, List.mem_cons] at he
      rcases he with rfl | rfl | he
      · rfl
      · rfl
      · exact ih e he

/-- Auxiliary: the streaming evaluation tail never raises. -/
theorem evalPhaseS_not_raised (o : EngineOracle) (a : ℕ) (st : AttemptState)
    (results : List StepResult) (resp : String) (b4 : Budget)
    (evts : List Event) (stats0 : IterStats) (e : String) :
    (evalPhaseS o a st results resp b4 evts stats0).2.1 ≠ .raised e := by
  unfold evalPhaseS
  dsimp only
  split
  · simp
  · split <;> split <;> simp

/-- Auxiliary: the event block of a streaming plan-phase execution segment —
plan event, step events, routing status, token events — is non-terminal. -/
theorem terminal_free_exec_tail (evts1 : List Event) (p : ExecutionPlan)
    (tO : ToolOracle) (dest : String) (toks : List String)
    (h1 : ∀ e ∈ evts1, isTerminal e = false) :
    ∀ e ∈ (evts1 ++ [Event.plan p] ++ stepEvents tO p.steps ++
        [Event.status ("Routing to: " ++ dest)]) ++ toks.map Event.token,
      isTerminal e = false := by
  refine terminal_free_append _ _ ?_ (terminal_free_tokens _)
  refine terminal_free_append _ _ ?_ (terminal_free_status _)
  refine terminal_free_append _ _ ?_ (stepEvents_terminal_free tO _)
  refine terminal_free_append _ _ h1 ?_
  intro e he
  simp only [List.mem_singleton] at he
  subst he
  rfl

/-- Auxiliary: all events a streaming plan-phase emits are non-terminal,
provided the prefix it was handed is. -/
theorem iterSPlan_events_terminal_free (o : EngineOracle) (a : ℕ)
    (st : AttemptState) (allowed : List String) (availStr : String) (pc : ℕ)
    (evts0 : List Event) (h0 : ∀ e ∈ evts0, isTerminal e = false) :
    ∀ e ∈ (iterSPlan o a st allowed availStr pc evts0).1, isTerminal e = false := by
  have h1 : ∀ e ∈ evts0 ++ [Event.status "Planning execution strategy..."],
      isTerminal e = false :=
    terminal_free_append _ _ h0 (terminal_free_status _)
  unfold iterSPlan
  dsimp only
  split
  · exact h1
  · split
    · split
      · exact h1
      · exact terminal_free_append _ _ h1 (terminal_free_status _)
    · split
      · split
        · exact h1
        · exact terminal_free_append _ _ h1 (terminal_free_status _)
      · split
        · split
          · exact terminal_free_exec_tail _ _ _ _ _ h1
          · rw [evalPhaseS_events]
            exact terminal_free_exec_tail _ _ _ _ _ h1
        · rw [evalPhaseS_events]
          exact terminal_free_exec_tail _ _ _ _ _ h1

/-- Auxiliary: all events one streaming iteration emits are non-terminal. -/
theorem iterS_events_terminal_free (o : EngineOracle) (a : ℕ) (st : AttemptState) :
    ∀ e ∈ (iterS o a st).1, isTerminal e = false := by
  have h0 : ∀ e ∈ (if a > 0 then
      [Event.status ("🔄 Quality check failed. Re-planning attempt " ++
        toString (a + 1) ++ "...")] else []) ++
      [Event.status (budgetStatusMsg o st)], isTerminal e = false := by
    refine terminal_free_append _ _ ?_ (terminal_free_status _)
    split
    · exact terminal_free_status _
    · intro e he; simp at he
  unfold iterS
  dsimp only
  split
  · split
    · exact h0
    · exact h0
    · split
      · exact h0
      · exact iterSPlan_events_terminal_free o a _ _ _ _ _ h0
  · exact iterSPlan_events_terminal_free o a _ _ _ _ _ h0

/-- Auxiliary: the streaming plan phase can only raise out of the
multi-agent path; with a non-raising multi-agent collaborator it never
raises. -/
theorem iterSPlan_not_raised (o : EngineOracle) (a : ℕ) (st : AttemptState)
    (allowed : List String) (availStr : String) (pc : ℕ) (evts0 : List Event)
    (hag : (o.agent a).2 = Option.none) (e : String) :
    (iterSPlan o a st allowed availStr pc evts0).2.1 ≠ .raised e := by
  unfold iterSPlan
  dsimp only
  split
  · simp
  · split
    · split <;> simp
    · split
      · split <;> simp
      · split
        · rw [hag]
          exact evalPhaseS_not_raised _ _ _ _ _ _ _ _ e
        · exact evalPhaseS_not_raised _ _ _ _ _ _ _ _ e

/-- Auxiliary: a streaming iteration with a non-raising multi-agent
collaborator never raises. -/
theorem iterS_not_raised (o : EngineOracle) (a : ℕ) (st : AttemptState)
    (hag : (o.agent a).2 = Option.none) (e : String) :
    (iterS o a st).2.1 ≠ .raised e := by
  unfold iterS
  dsimp only
  split
  · split
    · simp
    · simp
    · split
      · simp
      · exact iterSPlan_not_raised o a _ _ _ _ _ hag e
  · exact iterSPlan_not_raised o a _ _ _ _ _ hag e

/-- Auxiliary: the streaming loop's event trace ends in exactly one `error`
event when it early-returns, is terminal-free when it falls through, and
never raises when the multi-agent collaborator does not. -/
theorem loopS_spec (o : EngineOracle) (hag : ∀ a, (o.agent a).2 = Option.none) :
    ∀ (fuel attempt : ℕ) (st : AttemptState),
      ((loopS o fuel attempt st).exit = .early →
        ∃ pre msg, (loopS o fuel attempt st).events = pre ++ [Event.error msg] ∧
          ∀ e ∈ pre, isTerminal e = false) ∧
      (∀ st2 la, (loopS o fuel attempt st).exit = .fell st2 la →
        ∀ e ∈ (loopS o fuel attempt st).events, isTerminal e = false) ∧
      (∀ ex, (loopS o fuel attempt st).exit ≠ .raised ex) := by
  intro fuel
  induction fuel with
  | zero =>
      intro a st
      refine ⟨fun h => by simp [loopS] at h, fun st2 la _ e he => by simp [loopS] at he,
        fun ex h => by simp [loopS] at h⟩
  | succ n ih =>
      intro a st
      unfold loopS
      rcases hi : iterS o a st with ⟨evts, core, s⟩
      have hTF : ∀ e ∈ evts, isTerminal e = false := by
        have h := iterS_events_terminal_free o a st
        rw [hi] at h
        exact h
      cases core with
      | early msg =>
          dsimp only
          refine ⟨fun _ => ⟨evts, msg, rfl, hTF⟩, ?_, ?_⟩
          · intro st2 la h
            exact absurd h (by simp)
          · intro ex h
            exact absurd h (by simp)
      | raised e =>
          exfalso
          have h := iterS_not_raised o a st (hag a) e
          rw [hi] at h
          exact h rfl
      | brk st2 =>
          dsimp only
          refine ⟨fun h => absurd h (by simp), ?_, ?_⟩
          · intro st3 la _
            exact hTF
          · intro ex h
            exact absurd h (by simp)
      | next st2 =>
          dsimp only
          obtain ⟨ih1, ih2, ih3⟩ := ih (a + 1) st2
          refine ⟨?_, ?_, ?_⟩
          · intro hx
            obtain ⟨pre, msg, hev, hpre⟩ := ih1 hx
            exact ⟨evts ++ pre, msg, by rw [hev, List.append_assoc],
              terminal_free_append _ _ hTF hpre⟩
          · intro st3 la h
            exact terminal_free_append _ _ hTF (ih2 st3 la h)
          · exact ih3

/-- C8 (amended): whenever no exception escapes the unguarded multi-agent
synthesis phase, the streaming mode emits exactly one terminal event
(`complete` or `error`), as the last event of the stream, with no event of
any type after it; when the multi-agent collaborator raises, the exception
propagates out of the generator and the request receives no terminal event
at all. -/
theorem c8_stream_terminal_amended (o : EngineOracle)
    (hag : ∀ a, (o.agent a).2 = Option.none) :
    (processQueryStream o).exn = Option.none ∧
    ∃ pre t, (processQueryStream o).events = pre ++ [t] ∧ isTerminal t = true ∧
      ∀ e ∈ pre, isTerminal e = false := by
  unfold processQueryStream
  dsimp only
  split
  · refine ⟨rfl, [Event.security o.stress],
      .error ("Security Block: " ++ o.stress.reasoning), rfl, rfl, ?_⟩
    intro e he
    simp only [List.mem_singleton] at he
    subst he
    rfl
  · obtain ⟨h1, h2, h3⟩ := loopS_spec o hag (MAX_RETRIES + 1) 0 (initStateS o.budget0)
    cases hx : (loopS o (MAX_RETRIES + 1) 0 (initStateS o.budget0)).exit with
    | early =>
        obtain ⟨pre, msg, hev, hpre⟩ := h1 hx
        refine ⟨rfl, Event.security o.stress :: pre, .error msg, ?_, rfl, ?_⟩
        · rw [hev]
          rfl
        · intro e he
          rcases List.mem_cons.mp he with rfl | he2
          · rfl
          · exact hpre e he2
    | raised ex => exact absurd hx (h3 ex)
    | fell st la =>
        have hTF := h2 st la hx
        refine ⟨rfl, Event.security o.stress ::
          ((loopS o (MAX_RETRIES + 1) 0 (initStateS o.budget0)).events ++
            [Event.evaluation st.evaluation st.groundingScore la]),
          .complete, ?_, rfl, ?_⟩
        · simp
        · intro e he
          rcases List.mem_cons.mp he with rfl | he2
          · rfl
          · rcases List.mem_append.mp he2 with he3 | he3
            · exact hTF e he3
            · simp only [List.mem_singleton] at he3
              subst he3
              rfl

/-- The oracle whose multi-agent collaborator raises. -/
def oC8 : EngineOracle := { oC7 with agent := fun _ => ([], some "boom") }

/-- C8, counterexample.  On `oC8` the router escalates to the multi-agent
system and the collaborator raises: the exception propagates out of the
stream, and the request receives zero terminal events — refuting "exactly
one terminal event per request, including when an internal exception
occurs". -/
theorem c8_counterexample :
    (processQueryStream oC8).exn = some "boom" ∧
    ∀ e ∈ (processQueryStream oC8).events, isTerminal e = false :=
  ⟨by decide, by decide⟩

/-- C8, witness: the amended theorem applied to `oC7`, whose multi-agent
collaborator streams without raising. -/
theorem c8_witness :
    (processQueryStream oC7).exn = Option.none ∧
    ∃ pre t, (processQueryStream oC7).events = pre ++ [t] ∧ isTerminal t = true ∧
      ∀ e ∈ pre, isTerminal e = false :=
  c8_stream_terminal_amended oC7 (fun _ => rfl)

end FastRag
